import Mathlib

/-!
Verification of the bubble-lang compiler front-end against its specification.

Shallow embedding of `libbubble` (Rust) in Lean 4. Each definition is
translated from the named source file; machine integers are modelled as
`Nat`/`Int`, Rust `HashMap`s as association lists, raw declaration pointers
as stable name ids (as suggested by the spec, design note 9), and Rust
panics (`unreachable!`, `todo!`, `expect`) as `Option`/dedicated error
constructors.
-/

namespace Bubble

/-! ### Semantic types — `src/libbubble/src/type_system/typables.rs`

The Rust enum is called `Type`; that word is reserved in Lean, so the
embedded type is named `Ty`. `Struct`/`Function` payloads `Vec<(Type,
String)>` become `List (Ty × String)`, `u32` sizes become `Nat` (no
arithmetic is ever performed on them). -/

inductive Ty where
  | u8 | u16 | u32 | u64
  | i8 | i16 | i32 | i64
  /-- Abstract integer literal type, internal to the AST. -/
  | int
  | float
  | string
  | bool
  | struct_ (name : String) (fields : List (Ty × String))
  | function (parameters : List (Ty × String)) (return_type : Ty)
  | array (size : Nat) (array_type : Ty)
  | ptr (t : Ty)
  | void
  | null (concrete_type : Option Ty)
  deriving Repr

/-- Translation of `Type::is_compatible_with` (typables.rs lines 47-92),
arm for arm: the big disjunction of `true` pairs (which includes the
one-way `(Ptr(_), Null { .. })` arm), then the `Array`/`Array` and
`Ptr`/`Ptr` recursive arms, then the catch-all `false`. -/
def Ty.is_compatible_with : Ty → Ty → Bool
  | .int, .int | .int, .u8 | .int, .u16 | .int, .u32 | .int, .u64
  | .int, .i8 | .int, .i16 | .int, .i32 | .int, .i64
  | .u8, .int | .u16, .int | .u32, .int | .u64, .int
  | .i8, .int | .i16, .int | .i32, .int | .i64, .int
  | .u8, .u8 | .u16, .u16 | .u32, .u32 | .u64, .u64
  | .i8, .i8 | .i16, .i16 | .i32, .i32 | .i64, .i64
  | .bool, .bool
  | .void, .void
  | .ptr _, .null _
  | .string, .string => true
  | .array lsize larray_type, .array rsize rarray_rtype =>
      lsize == rsize && larray_type.is_compatible_with rarray_rtype
  | .ptr l, .ptr r => l.is_compatible_with r
  | _, _ => false
  termination_by structural a => a

/-- Translation of `Type::is_integer` (typables.rs lines 94-107). -/
def Ty.is_integer : Ty → Bool
  | .u8 | .u16 | .u32 | .u64 | .i8 | .i16 | .i32 | .i64 | .int => true
  | _ => false

/-- Translation of `Type::is_signed` (typables.rs lines 109-111). -/
def Ty.is_signed : Ty → Bool
  | .i8 | .i16 | .i32 | .i64 => true
  | _ => false

/-! Helper predicates used to state the amended form of claim C5. They are
spec-side characterisations, not translations of source code. -/

/-- Types on which compatibility is reflexive: every scalar arm that appears
in the diagonal of `is_compatible_with`, closed under `ptr` and `array`
(the only two constructors through which the function recurses). `float`,
`struct_`, `function` and `null` are excluded: the source reaches the
catch-all `false` arm on those diagonals. -/
def Ty.refl_compatible : Ty → Bool
  | .u8 | .u16 | .u32 | .u64 | .i8 | .i16 | .i32 | .i64
  | .int | .bool | .void | .string => true
  | .ptr t => t.refl_compatible
  | .array _ t => t.refl_compatible
  | _ => false
  termination_by structural t => t

/-- Types containing no `null` constructor along any `ptr`/`array` spine
(the only paths `is_compatible_with` recurses into; `struct_`/`function`
payloads are never inspected by it). -/
def Ty.null_free : Ty → Bool
  | .null _ => false
  | .ptr t => t.null_free
  | .array _ t => t.null_free
  | _ => true
  termination_by structural t => t

mutual
/-- Structural equality on `Ty`, mirroring the derived `PartialEq` of the
Rust `Type` enum (typables.rs line 10). Written by hand because Lean cannot
derive `DecidableEq` for this nested inductive. -/
def Ty.beq : Ty → Ty → Bool
  | .u8, .u8 | .u16, .u16 | .u32, .u32 | .u64, .u64
  | .i8, .i8 | .i16, .i16 | .i32, .i32 | .i64, .i64
  | .int, .int | .float, .float | .string, .string | .bool, .bool | .void, .void => true
  | .struct_ n1 f1, .struct_ n2 f2 => n1 == n2 && Ty.beq_fields f1 f2
  | .function p1 r1, .function p2 r2 => Ty.beq_fields p1 p2 && Ty.beq r1 r2
  | .array s1 t1, .array s2 t2 => s1 == s2 && Ty.beq t1 t2
  | .ptr t1, .ptr t2 => Ty.beq t1 t2
  | .null none, .null none => true
  | .null (some t1), .null (some t2) => Ty.beq t1 t2
  | _, _ => false
/-- Field-list equality used by `Ty.beq` on `struct_`/`function` payloads. -/
def Ty.beq_fields : List (Ty × String) → List (Ty × String) → Bool
  | [], [] => true
  | (t1, n1) :: r1, (t2, n2) :: r2 => Ty.beq t1 t2 && n1 == n2 && Ty.beq_fields r1 r2
  | _, _ => false
end

/-! ### Claim C5 — compatibility is reflexive and symmetric -/

theorem nat_beq_symm (m n : Nat) : (m == n) = (n == m) := by
  by_cases h : m = n
  · simp [h]
  · simp [h, Ne.symm h]

theorem Ty.compat_refl :
    ∀ (t : Ty), t.refl_compatible = true → t.is_compatible_with t = true
  | .u8, _ | .u16, _ | .u32, _ | .u64, _ | .i8, _ | .i16, _ | .i32, _ | .i64, _
  | .int, _ | .bool, _ | .void, _ | .string, _ => rfl
  | .ptr t, h => Ty.compat_refl t h
  | .array n t, h => by
      show (n == n && t.is_compatible_with t) = true
      simp [Ty.compat_refl t h]

theorem compat_symm (a b : Ty) (ha : a.null_free = true) (hb : b.null_free = true) :
    a.is_compatible_with b = b.is_compatible_with a := by
  cases a <;> cases b <;>
    first
      | rfl
      | (simp [Ty.null_free] at ha; done)
      | (simp [Ty.null_free] at hb; done)
      | (rename_i s t
         exact compat_symm s t (by simpa [Ty.null_free] using ha)
           (by simpa [Ty.null_free] using hb))
      | (rename_i s1 t1 s2 t2
         show (s1 == s2 && t1.is_compatible_with t2)
            = (s2 == s1 && t2.is_compatible_with t1)
         rw [compat_symm t1 t2 (by simpa [Ty.null_free] using ha)
              (by simpa [Ty.null_free] using hb), nat_beq_symm])

/-- C5, counterexample. The claim states that `is_compatible_with` is
reflexive on every semantic type and symmetric on every pair other than the
literal `(Ptr T, Null)` pair. Both parts fail on the code: `Float` is not
compatible with itself (the `(Float, Float)` pair falls into the catch-all
`false` arm), and the pair `(Ptr (Ptr i32), Ptr Null)` — which is not of
the shape `(Ptr T, Null)` — is compatible in one direction only, because
the `Ptr`/`Ptr` arm recurses into the one-way `Ptr`/`Null` rule. -/
theorem C5_counterexample :
    Ty.float.is_compatible_with .float = false ∧
    (Ty.ptr (.ptr .i32)).is_compatible_with (.ptr (.null none)) = true ∧
    (Ty.ptr (.null none)).is_compatible_with (.ptr (.ptr .i32)) = false :=
  ⟨by decide, by decide, by decide⟩

/-- C5 (amended): `is_compatible_with` is reflexive on every type built
from the sized integers, `Int`, `Bool`, `Void` and `String` by `Ptr` and
`Array` (reflexivity fails on `Float`, `Struct`, `Function` and `Null`
diagonals, which reach the catch-all `false` arm), and it is symmetric on
every pair of types in which `Null` does not occur along a `Ptr`/`Array`
spine (the one-way `Ptr(T) ~ Null` rule is the only source of asymmetry,
but it also acts at nested positions). -/
theorem C5_compat_refl_symm :
    (∀ t : Ty, t.refl_compatible = true → t.is_compatible_with t = true) ∧
    (∀ a b : Ty, a.null_free = true → b.null_free = true →
      a.is_compatible_with b = b.is_compatible_with a) :=
  ⟨Ty.compat_refl, compat_symm⟩

/-- Witness for C5: the amended theorem applied at `ptr i64` (reflexivity)
and at the pair `(i32, bool)` (symmetry). -/
theorem C5_witness :
    ((Ty.ptr .i64).is_compatible_with (Ty.ptr .i64) = true) ∧
    (Ty.i32.is_compatible_with .bool = Ty.bool.is_compatible_with .i32) :=
  ⟨C5_compat_refl_symm.1 _ (by decide),
   C5_compat_refl_symm.2 _ _ (by decide) (by decide)⟩

/-! ### AST — `src/libbubble/src/ast/`

The repository's `ast/statements.rs` holds an older variant of the
statement nodes (`ForStatement` with `init_identifier`, `FunctionStatement`
with tuple parameters and a mandatory body), while every pass under
`desugar/`, `type_system/` (except `rename.rs`) and `codegen/` consumes the
newer variant, whose shape is fully determined by the destructuring
patterns in `desugar/for_statement.rs` (lines 6-94), the field accesses in
`binder.rs`, `type_checker.rs`, `inference.rs`, `locals_collector.rs`, and
the walkers in `ast/visitor.rs`, and matches spec section 3. The statement
nodes below follow that newer variant; `rename.rs` gets its own variant
further down. Expression nodes are from `ast/expressions.rs` (shared by
both variants), with each Rust struct inlined into its enum constructor,
keeping the field names. -/

/-- Source byte span, `ast/location.rs` `TokenLocation::new(begin, end)`.
Field names avoid the Lean keyword `end`. -/
structure TokenLocation where
  startByte : Nat
  endByte : Nat
  deriving Repr, DecidableEq

/-- Resolved declaration reference, `ast/bindable.rs`. The Rust payloads
are raw pointers to the declaration nodes; following the spec (design note
9) they are modelled as stable identifiers — the declaration's name. -/
inductive Definition where
  | struct_ (name : String)
  | localVariable (name : String)
  | function (name : String)
  deriving Repr, DecidableEq

/-- Translation of `Definition::is_function` (bindable.rs lines 25-30). -/
def Definition.is_function : Definition → Bool
  | .function _ => true
  | _ => false

/-- Binary and unary operator tags, `ast/expressions.rs` `OpType`. -/
inductive OpType where
  | and | different | divide | equal | less | lessEqual | minus
  | modulo | more | moreEqual | multiply | not_ | or | plus
  deriving Repr, DecidableEq

/-! Syntactic types, `ast/types.rs` `Type` (renamed `AstType`: `Type` is a
Lean keyword) and `TypeKind`. `types.rs` as committed lacks the `Float`,
`Array`, `Ptr` and `Null` arms that `typables.rs`'s `From<ast::TypeKind>`
conversion matches on; they are included here as that conversion and the
parser grammar (spec section 4.2) demand. -/
mutual
inductive AstType where
  | mk (kind : TypeKind) (location : TokenLocation) (definition : Option Definition)
inductive TypeKind where
  | u8 | u16 | u32 | u64 | i8 | i16 | i32 | i64
  | string | bool | float
  | identifier (name : String)
  | void
  | array (size : Nat) (array_type : AstType)
  | ptr (t : AstType)
  | null
end

/-- Translation of `impl From<ast::TypeKind> for Type` (typables.rs lines
124-153). -/
def Ty.from_type_kind : TypeKind → Ty
  | .u8 => .u8
  | .u16 => .u16
  | .u32 => .u32
  | .u64 => .u64
  | .i8 => .i8
  | .i16 => .i16
  | .i32 => .i32
  | .i64 => .i64
  | .string => .string
  | .bool => .bool
  | .float => .float
  | .identifier name => .struct_ name []
  | .void => .void
  | .array size (.mk kind _ _) => .array size (Ty.from_type_kind kind)
  | .ptr (.mk kind _ _) => .ptr (Ty.from_type_kind kind)
  | .null => .null none
  termination_by structural k => k

/-! Expression nodes, `ast/expressions.rs`. Every payload struct
(`BinaryOperation`, `Literal`, `Call`, `Assignment`, `ArrayInitializer`,
`AddrOf`, `Deref`) is inlined into its constructor with the Rust field
names; `Vec<Box<Expression>>` becomes `List Expression`. The `f64` payload
of `LiteralType::Float` is dropped (floating point is not modelled; no
claim inspects the value). The `Null` literal node carries the `ty` slot
that `inference.rs` line 40 writes through `set_type`. -/
mutual
inductive Expression where
  | group (e : Expression)
  | binaryOperation (left : Expression) (right : Option Expression) (op : OpType)
      (ty : Option Ty) (location : TokenLocation)
  | literal (literal_type : LiteralType) (definition : Option Definition)
      (ty : Option Ty) (location : TokenLocation)
  | call (callee : String) (arguments : List Expression) (location : TokenLocation)
      (ty : Option Ty) (definition : Option Definition)
  | assignment (left : Expression) (right : Expression) (ty : Option Ty)
      (location : TokenLocation)
  | arrayInitializer (values : List Expression) (ty : Option Ty) (location : TokenLocation)
  | addrOf (expr : Expression) (location : TokenLocation)
  | deref (expr : Expression) (location : TokenLocation)
inductive LiteralType where
  | true
  | false
  | integer (value : Int)
  | float
  | identifier (name : String)
  | arrayAccess (identifier : Expression) (index : Expression)
      (definition : Option Definition) (ty : Option Ty) (location : TokenLocation)
  | string (s : String)
  | null (ty : Option Ty) (location : TokenLocation)
end

/-- Let declaration, newer variant (`binder.rs` line 121-130,
`visitor.rs` lines 56-63 and 216-224, `locals_collector.rs` lines 65-76):
optional annotation, optional init expression, `ty` annotation slot. -/
structure LetStatement where
  name : String
  declaration_type : Option TypeKind
  init_exp : Option Expression
  location : TokenLocation
  ty : Option Ty

/-! Statement nodes, newer variant (destructured in
`desugar/for_statement.rs`; walked in `ast/visitor.rs`). Each statement
struct is inlined into its `StatementKind` constructor. -/
mutual
inductive Statement where
  | mk (kind : StatementKind) (location : TokenLocation)
inductive StatementKind where
  | if_ (condition : Expression) (then_clause : Statements)
      (else_clause : Option Statements) (location : TokenLocation)
  | let_ (l : LetStatement)
  | while_ (condition : Expression) (body : Statements) (location : TokenLocation)
  | for_ (init_decl : LetStatement) (continue_expression : Expression)
      (modify_expression : Expression) (body : Statements) (location : TokenLocation)
  | return_ (exp : Option Expression) (location : TokenLocation)
  | break_ (location : TokenLocation)
  | continue_ (location : TokenLocation)
  | expression (expr : Expression) (naked : Bool)
inductive Statements where
  | mk (statements : List Statement) (location : TokenLocation)
end

/-- Projection for the statement list of a `Statements` node. -/
def Statements.statements : Statements → List Statement
  | .mk l _ => l

/-- Projection for the location of a `Statements` node. -/
def Statements.location : Statements → TokenLocation
  | .mk _ loc => loc

/-- Translation of `Statements::append_statement` (ast/statements.rs lines
314-317): `self.statements.insert(0, stmt)` — the statement is inserted at
the front of the vector. -/
def Statements.append_statement : Statements → Statement → Statements
  | .mk statements location, stmt => .mk (stmt :: statements) location

/-- Function declaration, newer variant: exactly the fields destructured
by `desugar/for_statement.rs` lines 68-76. -/
structure FunctionStatement where
  name : String
  parameters : List LetStatement
  return_type : TypeKind
  is_extern : Bool
  body : Option Statements
  location : TokenLocation
  ty : Option Ty

/-- Struct declaration, `ast/statements.rs` `StructStatement`. -/
structure StructStatement where
  name : String
  fields : List (TypeKind × String)
  location : TokenLocation
  ty : Option Ty

/-- Top-level statement, `ast/statements.rs` `GlobalStatement`. -/
inductive GlobalStatement where
  | function (f : FunctionStatement)
  | struct_ (s : StructStatement)
  | let_ (l : LetStatement)

/-! ### Claim C7 — `append_statement` appends at the end -/

/-- A concrete `break;` statement used as pre-existing content. -/
def c7_break : Statement :=
  .mk (.break_ ⟨0, 5⟩) ⟨0, 5⟩

/-- A concrete `continue;` statement used as the appended statement. -/
def c7_continue : Statement :=
  .mk (.continue_ ⟨6, 14⟩) ⟨6, 14⟩

/-- Failing input for C7: appending to a one-statement list. The claim
says `append_statement` puts the new statement at the end (`[break,
continue]`, last element the appended one, old elements keeping their
positions); the code (`self.statements.insert(0, stmt)`) produces
`[continue, break]` — the appended statement lands at the front and the
previously present statement is shifted. -/
theorem C7_prepend_bug :
    ((Statements.mk [c7_break] ⟨0, 14⟩).append_statement c7_continue).statements
      = [c7_continue, c7_break] :=
  rfl

/-! ### Scoped map — `src/libbubble/src/type_system/utils.rs`

`Scope<T>` is a `HashMap<String, T>`, modelled as an association list
whose `insert` conses the new binding in front (lookup-equivalent to the
hash map's replace-on-insert). `ScopedMap<T>` is a `Vec<Scope<T>>` used as
a stack (push/pop at the vector's end); the vector is modelled with the
innermost scope at the head of the list, so `find_symbol`'s
`iter().rev().find_map(..)` is a head-first search. `delete_scope`
(`assert` + `pop().unwrap()`) and `insert_symbol`
(`last_mut().expect(..)`) panic on an empty stack; both are modelled with
`Option`. -/

abbrev Scope (T : Type) : Type := List (String × T)

structure ScopedMap (T : Type) where
  scopes : List (Scope T)

/-- Translation of `ScopedMap::default` (utils.rs lines 6-12): one default
scope. -/
def ScopedMap.default (T : Type) : ScopedMap T := ⟨[[]]⟩

/-- Translation of `ScopedMap::new_scope` (utils.rs lines 15-17). -/
def ScopedMap.new_scope (m : ScopedMap T) : ScopedMap T :=
  ⟨[] :: m.scopes⟩

/-- Translation of `ScopedMap::delete_scope` (utils.rs lines 19-22):
panics (`none`) when no scope is left. -/
def ScopedMap.delete_scope (m : ScopedMap T) : Option (ScopedMap T) :=
  match m.scopes with
  | [] => none
  | _ :: rest => some ⟨rest⟩

/-- Translation of `ScopedMap::insert_symbol` (utils.rs lines 24-29):
inserts into the innermost scope, panics (`none`) when no scope exists. -/
def ScopedMap.insert_symbol (m : ScopedMap T) (name : String) (element : T) :
    Option (ScopedMap T) :=
  match m.scopes with
  | [] => none
  | scope :: rest => some ⟨((name, element) :: scope) :: rest⟩

/-- Translation of `ScopedMap::find_symbol` (utils.rs lines 31-33):
innermost-first search. -/
def ScopedMap.find_symbol (m : ScopedMap T) (symbol : String) : Option T :=
  m.scopes.findSome? (fun scope => scope.lookup symbol)

/-! ### Claim C10 — scope deletion is a frame-preserving inverse -/

/-- Runs a sequence of `insert_symbol` calls. -/
def ScopedMap.insert_all (m : ScopedMap T) (l : List (String × T)) :
    Option (ScopedMap T) :=
  l.foldlM (fun acc p => acc.insert_symbol p.1 p.2) m

theorem ScopedMap.insert_all_cons_scope (sc : Scope T) (rest : List (Scope T))
    (l : List (String × T)) :
    ScopedMap.insert_all ⟨sc :: rest⟩ l = some ⟨(l.reverse ++ sc) :: rest⟩ := by
  induction l generalizing sc with
  | nil => rfl
  | cons p l ih =>
      simp [ScopedMap.insert_all, List.foldlM_cons, ScopedMap.insert_symbol] at ih ⊢
      simpa using ih (p :: sc)

/-- C10: a `new_scope` / `insert_symbol`* / `delete_scope` bracket is a
frame: the deletion succeeds and returns exactly the original map (so
`find_symbol` is restored for every name), and between the bracket
`find_symbol` sees the inserted bindings — latest first — shadowing the
outer map. -/
theorem C10_scope_frame (T : Type) (m : ScopedMap T) (l : List (String × T)) :
    ∃ m' : ScopedMap T,
      m.new_scope.insert_all l = some m' ∧
      m'.delete_scope = some m ∧
      (∀ name : String,
        m'.find_symbol name = ((l.reverse.lookup name).or (m.find_symbol name))) := by
  refine ⟨⟨l.reverse :: m.scopes⟩, ?_, rfl, ?_⟩
  · simpa using ScopedMap.insert_all_cons_scope [] m.scopes l
  · intro name
    simp only [ScopedMap.find_symbol, List.findSome?_cons]
    cases h : (l.reverse.lookup name) <;> simp [h, Option.or]

/-! ### For-loop desugaring — `src/libbubble/src/desugar/for_statement.rs` -/

/-- Translation of `build_while` (for_statement.rs lines 6-39): the
modify-expression is pushed as a non-naked expression statement at the end
of the for body, and the result is a `let` statement followed by a `while`
statement (both carrying the for statement's location). -/
def build_while (init_decl : LetStatement) (continue_expression : Expression)
    (modify_expression : Expression) (for_body : Statements)
    (location : TokenLocation) : List Statement :=
  let for_body :=
    Statements.mk
      (for_body.statements
        ++ [Statement.mk (.expression modify_expression false) location])
      for_body.location
  [Statement.mk (.let_ init_decl) location,
   Statement.mk (.while_ continue_expression for_body location) location]

/-- Statement-list loop of `desugar_function_body` (for_statement.rs lines
44-54): only a statement whose kind is `For` at the top level of the list
is replaced by `build_while`; every other statement is pushed through
unchanged — the loop never descends into `if`, `while` or `for` bodies. -/
def desugar_statement_list : List Statement → List Statement
  | [] => []
  | .mk kind location :: rest =>
      match kind with
      | .for_ init_decl continue_e modify_e body for_location =>
          build_while init_decl continue_e modify_e body for_location
            ++ desugar_statement_list rest
      | k => .mk k location :: desugar_statement_list rest

/-- Translation of `desugar_function_body` (for_statement.rs lines 41-60). -/
def desugar_function_body (fn_statements : Statements) : Statements :=
  .mk (desugar_statement_list fn_statements.statements) fn_statements.location

/-- Translation of `desugar_for` (for_statement.rs lines 62-94). The
`body.expect("unreachable")` panic on a body-less non-extern function is
modelled by `none`. -/
def desugar_for : List GlobalStatement → Option (List GlobalStatement)
  | [] => some []
  | .function fn_stmt :: rest =>
      if fn_stmt.is_extern = false then
        match fn_stmt.body with
        | none => none
        | some body =>
            (desugar_for rest).map
              (fun r =>
                .function { fn_stmt with body := some (desugar_function_body body) } :: r)
      else
        (desugar_for rest).map (fun r => .function fn_stmt :: r)
  | stmt :: rest => (desugar_for rest).map (fun r => stmt :: r)

/-! Full-tree traversal looking for a `For` node, the check stated by the
claim (spec section 8, invariant 3): it descends into `if`, `while` and
`for` bodies. Spec-side definition, not a translation of source code. -/

mutual
def Statement.contains_for : Statement → Bool
  | .mk kind _ => kind.contains_for
def StatementKind.contains_for : StatementKind → Bool
  | .for_ _ _ _ _ _ => true
  | .if_ _ then_clause else_clause _ =>
      then_clause.contains_for
        || (match else_clause with
            | some s => s.contains_for
            | none => false)
  | .while_ _ body _ => body.contains_for
  | _ => false
def Statements.contains_for : Statements → Bool
  | .mk l _ => statement_list_contains_for l
def statement_list_contains_for : List Statement → Bool
  | [] => false
  | s :: rest => s.contains_for || statement_list_contains_for rest
end

/-- For-node check over a whole program. -/
def global_statements_contain_for : List GlobalStatement → Bool
  | [] => false
  | .function f :: rest =>
      (match f.body with
       | some b => b.contains_for
       | none => false) || global_statements_contain_for rest
  | _ :: rest => global_statements_contain_for rest

/-! ### Claim C1 — no `For` node survives desugaring -/

/-- A span used by the C1 failing input. -/
def c1_loc : TokenLocation := ⟨0, 0⟩

/-- The for statement `for i = 0; true; 0 { }` as a statement kind. -/
def c1_for_kind : StatementKind :=
  .for_
    { name := "i", declaration_type := none,
      init_exp := some (.literal (.integer 0) none none c1_loc),
      location := c1_loc, ty := none }
    (.literal .true none none c1_loc)
    (.literal (.integer 0) none none c1_loc)
    (.mk [] c1_loc)
    c1_loc

/-- Failing input for C1: a non-extern function whose body is
`if true { for i = 0; true; 0 { } }` — the only `For` node sits inside the
`if` branch. -/
def c1_fn : FunctionStatement :=
  { name := "f", parameters := [], return_type := .void, is_extern := false,
    body := some (.mk
      [.mk (.if_ (.literal .true none none c1_loc)
                 (.mk [.mk c1_for_kind c1_loc] c1_loc)
                 none c1_loc) c1_loc]
      c1_loc),
    location := c1_loc, ty := none }

/-- C1, code bug: `desugar_for` succeeds on `c1_fn` but the returned AST
still contains a `For` node (inside the `if` branch), because
`desugar_function_body` only rewrites `For` statements at the top level of
a function body and never recurses into `if`/`while`/`for` bodies. The
claim (and the translator's own `unreachable!("for desugar")` assertion,
codegen/llvm_ir.rs line 447) requires that no `For` node survive. -/
theorem C1_nested_for_survives :
    (desugar_for [.function c1_fn]).map global_statements_contain_for = some true :=
  rfl

/-! ### Locals collector — `src/libbubble/src/codegen/locals_collector.rs`

The collector walks each function with the default immutable `Visitor`
walkers of `ast/visitor.rs`, overriding only `visit_function` and
`visit_let`. `StackVariable` keeps a name and a borrowed `&Type`; the
borrow is modelled by value. `SymbolsMap` is a `HashMap<&str,
Vec<StackVariable>>`, modelled as an association list with unique keys and
replace-on-insert. The walk panics (`none`) on a `Deref` expression
(`visitor.rs` line 120 `todo!()`), on an untyped `let` (`get_type`'s
`expect`), on a function without a `Function` type (`unreachable!`), and
on a non-extern function without a body (`unwrap`). -/

structure StackVariable where
  name : String
  kind : Ty
  deriving Repr

abbrev SymbolsMap : Type := List (String × List StackVariable)

/-- Model of `HashMap::insert`: replaces the entry in place or appends. -/
def symbols_insert : SymbolsMap → String → List StackVariable → SymbolsMap
  | [], k, v => [(k, v)]
  | (k', v') :: rest, k, v =>
      if k' = k then (k, v) :: rest else (k', v') :: symbols_insert rest k v

/-- Model of `HashMap::get`. -/
def symbols_get : SymbolsMap → String → Option (List StackVariable)
  | [], _ => none
  | (k', v') :: rest, k => if k' = k then some v' else symbols_get rest k

/-- Model of `get_mut(..).unwrap().push(..)` (locals_collector.rs lines
69-72): appends to an existing entry, panics (`none`) when absent. -/
def symbols_update_push : SymbolsMap → String → StackVariable → Option SymbolsMap
  | [], _, _ => none
  | (k', v') :: rest, k, sv =>
      if k' = k then some ((k, v' ++ [sv]) :: rest)
      else (symbols_update_push rest k sv).map ((k', v') :: ·)

mutual
/-- Default `Visitor::visit_expression` walk as the collector sees it
(visitor.rs lines 111-168): no override fires on expressions, the default
`visit_literal` does not descend, and `Deref` hits `todo!()` — modelled as
`none`. -/
def collect_expr : Expression → Option Unit
  | .group e => collect_expr e
  | .binaryOperation left right _ _ _ => do
      let _ ← collect_expr left
      match right with
      | some e => collect_expr e
      | none => some ()
  | .literal _ _ _ _ => some ()
  | .call _ arguments _ _ _ => collect_expr_list arguments
  | .assignment left right _ _ => do
      let _ ← collect_expr left
      collect_expr right
  | .arrayInitializer values _ _ => collect_expr_list values
  | .addrOf e _ => collect_expr e
  | .deref _ _ => none
def collect_expr_list : List Expression → Option Unit
  | [] => some ()
  | e :: rest => do
      let _ ← collect_expr e
      collect_expr_list rest
end

/-- Translation of `Collector::visit_let` (locals_collector.rs lines
65-76): pushes `(name, get_type())` onto the current function's entry;
outside a function it does nothing. `get_type` on an untyped node panics
(`none`). -/
def collector_visit_let (cur : Option String) (m : SymbolsMap)
    (l : LetStatement) : Option SymbolsMap :=
  match cur with
  | some current_function =>
      match l.ty with
      | some t => symbols_update_push m current_function ⟨l.name, t⟩
      | none => none
  | none => some m

mutual
/-- Default statement-kind dispatch and walkers (visitor.rs lines 11-109)
as run by the collector: `visit_let` is the override above, everything
else is the default recursion skeleton. -/
def collect_stmt_kind (cur : Option String) (m : SymbolsMap) :
    StatementKind → Option SymbolsMap
  | .if_ condition (.mk then_stmts _) else_clause _ => do
      let _ ← collect_expr condition
      let m ← collect_stmt_list cur m then_stmts
      match else_clause with
      | some (.mk else_stmts _) => collect_stmt_list cur m else_stmts
      | none => some m
  | .let_ l => collector_visit_let cur m l
  | .while_ condition (.mk body_stmts _) _ => do
      let _ ← collect_expr condition
      collect_stmt_list cur m body_stmts
  | .for_ init_decl continue_expression modify_expression (.mk body_stmts _) _ => do
      let m ← collector_visit_let cur m init_decl
      let _ ← collect_expr modify_expression
      let _ ← collect_expr continue_expression
      collect_stmt_list cur m body_stmts
  | .return_ exp _ =>
      match exp with
      | some e => do
          let _ ← collect_expr e
          some m
      | none => some m
  | .break_ _ => some m
  | .continue_ _ => some m
  | .expression expr _ => do
      let _ ← collect_expr expr
      some m
def collect_stmt_list (cur : Option String) (m : SymbolsMap) :
    List Statement → Option SymbolsMap
  | [] => some m
  | .mk kind _ :: rest => do
      let m ← collect_stmt_kind cur m kind
      collect_stmt_list cur m rest
end

/-- Translation of `Collector::visit_function` (locals_collector.rs lines
45-63): extern functions are skipped; otherwise the map gets a fresh empty
entry (`collected_parameters` — note the source never fills it with the
parameters) keyed by the function name, and the body is walked with
`current_function` set. -/
def collector_visit_function (m : SymbolsMap) (f : FunctionStatement) :
    Option SymbolsMap :=
  if f.is_extern then some m
  else
    match f.ty with
    | some (.function _ _) =>
        let m := symbols_insert m f.name []
        match f.body with
        | some body => collect_stmt_list (some f.name) m body.statements
        | none => none
    | _ => none

/-- Translation of `Collector::dump_global_statements` (locals_collector.rs
lines 29-41), starting from the default (empty) collector state. -/
def dump_global_statements (stmts : List GlobalStatement) : Option SymbolsMap :=
  go [] stmts
where
  go (m : SymbolsMap) : List GlobalStatement → Option SymbolsMap
    | [] => some m
    | .function f :: rest => do
        let m ← collector_visit_function m f
        go m rest
    | _ :: rest => go m rest

mutual
/-- Spec-side definition for C2: the `(name, type)` pairs of the `let`
statements encountered during a depth-first statement walk (the `for`
induction variable is a `let` and comes before the loop body, matching the
walk order of `visitor.rs`); `none` when a `let` has no type. -/
def spec_lets_kind : StatementKind → Option (List StackVariable)
  | .if_ _ (.mk then_stmts _) else_clause _ => do
      let a ← spec_lets_list then_stmts
      match else_clause with
      | some (.mk else_stmts _) => do
          let b ← spec_lets_list else_stmts
          pure (a ++ b)
      | none => pure a
  | .let_ l =>
      match l.ty with
      | some t => some [⟨l.name, t⟩]
      | none => none
  | .while_ _ (.mk body_stmts _) _ => spec_lets_list body_stmts
  | .for_ init_decl _ _ (.mk body_stmts _) _ => do
      let a ←
        match init_decl.ty with
        | some t => some [(⟨init_decl.name, t⟩ : StackVariable)]
        | none => none
      let b ← spec_lets_list body_stmts
      pure (a ++ b)
  | _ => some []
def spec_lets_list : List Statement → Option (List StackVariable)
  | [] => some []
  | .mk kind _ :: rest => do
      let a ← spec_lets_kind kind
      let b ← spec_lets_list rest
      pure (a ++ b)
end

/-! ### Claim C2 — collector output for a function -/

theorem symbols_get_insert (m : SymbolsMap) (k : String) (v : List StackVariable) :
    symbols_get (symbols_insert m k v) k = some v := by
  induction m with
  | nil => simp [symbols_insert, symbols_get]
  | cons p rest ih =>
      by_cases h : p.1 = k <;> simp [symbols_insert, symbols_get, h, ih]

theorem symbols_insert_insert (m : SymbolsMap) (k : String)
    (a b : List StackVariable) :
    symbols_insert (symbols_insert m k a) k b = symbols_insert m k b := by
  induction m with
  | nil => simp [symbols_insert]
  | cons p rest ih =>
      by_cases h : p.1 = k <;> simp [symbols_insert, h, ih]

theorem symbols_insert_self (m : SymbolsMap) (k : String) (acc : List StackVariable)
    (h : symbols_get m k = some acc) : symbols_insert m k acc = m := by
  induction m with
  | nil => simp [symbols_get] at h
  | cons p rest ih =>
      by_cases hk : p.1 = k
      · have h2 : p.2 = acc := by simpa [symbols_get, hk] using h
        subst hk
        simp [symbols_insert, ← h2]
      · simp [symbols_get, hk] at h
        simp [symbols_insert, hk, ih h]

theorem symbols_update_push_eq (m : SymbolsMap) (k : String)
    (acc : List StackVariable) (sv : StackVariable)
    (h : symbols_get m k = some acc) :
    symbols_update_push m k sv = some (symbols_insert m k (acc ++ [sv])) := by
  induction m with
  | nil => simp [symbols_get] at h
  | cons p rest ih =>
      by_cases hk : p.1 = k
      · have h2 : p.2 = acc := by simpa [symbols_get, hk] using h
        subst hk
        simp [symbols_update_push, symbols_insert, ← h2]
      · simp [symbols_get, hk] at h
        simp [symbols_update_push, symbols_insert, hk, ih h]


mutual
theorem collect_kind_spec :
    ∀ (k : StatementKind) (n : String) (m m' : SymbolsMap)
      (acc : List StackVariable),
      symbols_get m n = some acc →
      collect_stmt_kind (some n) m k = some m' →
      ∃ lets, spec_lets_kind k = some lets ∧
        m' = symbols_insert m n (acc ++ lets)
  | .if_ condition (.mk then_stmts tl) (some (.mk else_stmts el)) loc,
      n, m, m', acc, hget, hc => by
      simp only [collect_stmt_kind, Option.bind_eq_bind, Option.bind_eq_some] at hc
      obtain ⟨_, hce, m1, hthen, helse⟩ := hc
      obtain ⟨a, ha, rfl⟩ := collect_list_spec then_stmts n m m1 acc hget hthen
      obtain ⟨b, hb, rfl⟩ :=
        collect_list_spec else_stmts n (symbols_insert m n (acc ++ a)) m' (acc ++ a)
          (symbols_get_insert m n (acc ++ a)) helse
      refine ⟨a ++ b, ?_, ?_⟩
      · simp [spec_lets_kind, ha, hb]
      · rw [symbols_insert_insert, List.append_assoc]
  | .if_ condition (.mk then_stmts tl) none loc, n, m, m', acc, hget, hc => by
      simp only [collect_stmt_kind, Option.bind_eq_bind, Option.bind_eq_some,
        Option.some.injEq] at hc
      obtain ⟨_, hce, m1, hthen, rfl⟩ := hc
      obtain ⟨a, ha, rfl⟩ := collect_list_spec then_stmts n m m1 acc hget hthen
      exact ⟨a, by simp [spec_lets_kind, ha], rfl⟩
  | .let_ l, n, m, m', acc, hget, hc => by
      cases hty : l.ty with
      | none => simp [collect_stmt_kind, collector_visit_let, hty] at hc
      | some t =>
          simp only [collect_stmt_kind, collector_visit_let, hty,
            symbols_update_push_eq m n acc _ hget, Option.some.injEq] at hc
          exact ⟨[⟨l.name, t⟩], by simp [spec_lets_kind, hty], hc.symm⟩
  | .while_ condition (.mk body_stmts bl) loc, n, m, m', acc, hget, hc => by
      simp only [collect_stmt_kind, Option.bind_eq_bind, Option.bind_eq_some] at hc
      obtain ⟨_, hce, hbody⟩ := hc
      obtain ⟨a, ha, rfl⟩ := collect_list_spec body_stmts n m m' acc hget hbody
      exact ⟨a, by simp [spec_lets_kind, ha], rfl⟩
  | .for_ init_decl continue_e modify_e (.mk body_stmts bl) loc,
      n, m, m', acc, hget, hc => by
      cases hty : init_decl.ty with
      | none => simp [collect_stmt_kind, collector_visit_let, hty] at hc
      | some t =>
          simp only [collect_stmt_kind, collector_visit_let, hty,
            symbols_update_push_eq m n acc _ hget, Option.bind_eq_bind,
            Option.bind_eq_some, Option.some.injEq] at hc
          obtain ⟨m1, hm1, _, hcm, _, hcc, hbody⟩ := hc
          subst hm1
          obtain ⟨b, hb, rfl⟩ :=
            collect_list_spec body_stmts n
              (symbols_insert m n (acc ++ [⟨init_decl.name, t⟩])) m'
              (acc ++ [⟨init_decl.name, t⟩])
              (symbols_get_insert m n (acc ++ [⟨init_decl.name, t⟩])) hbody
          refine ⟨⟨init_decl.name, t⟩ :: b, ?_, ?_⟩
          · simp [spec_lets_kind, hty, hb]
          · rw [symbols_insert_insert, List.append_assoc]
            rfl
  | .return_ (some e) loc, n, m, m', acc, hget, hc => by
      simp only [collect_stmt_kind, Option.bind_eq_bind, Option.bind_eq_some,
        Option.some.injEq] at hc
      obtain ⟨_, hce, hm⟩ := hc
      exact ⟨[], by simp [spec_lets_kind],
        by rw [List.append_nil, symbols_insert_self m n acc hget, hm]⟩
  | .return_ none loc, n, m, m', acc, hget, hc => by
      simp only [collect_stmt_kind, Option.some.injEq] at hc
      exact ⟨[], by simp [spec_lets_kind],
        by rw [List.append_nil, symbols_insert_self m n acc hget, hc]⟩
  | .break_ loc, n, m, m', acc, hget, hc => by
      simp only [collect_stmt_kind, Option.some.injEq] at hc
      exact ⟨[], by simp [spec_lets_kind],
        by rw [List.append_nil, symbols_insert_self m n acc hget, hc]⟩
  | .continue_ loc, n, m, m', acc, hget, hc => by
      simp only [collect_stmt_kind, Option.some.injEq] at hc
      exact ⟨[], by simp [spec_lets_kind],
        by rw [List.append_nil, symbols_insert_self m n acc hget, hc]⟩
  | .expression e naked, n, m, m', acc, hget, hc => by
      simp only [collect_stmt_kind, Option.bind_eq_bind, Option.bind_eq_some,
        Option.some.injEq] at hc
      obtain ⟨_, hce, hm⟩ := hc
      exact ⟨[], by simp [spec_lets_kind],
        by rw [List.append_nil, symbols_insert_self m n acc hget, hm]⟩

theorem collect_list_spec :
    ∀ (l : List Statement) (n : String) (m m' : SymbolsMap)
      (acc : List StackVariable),
      symbols_get m n = some acc →
      collect_stmt_list (some n) m l = some m' →
      ∃ lets, spec_lets_list l = some lets ∧
        m' = symbols_insert m n (acc ++ lets)
  | [], n, m, m', acc, hget, hc => by
      simp only [collect_stmt_list, Option.some.injEq] at hc
      exact ⟨[], rfl,
        by rw [List.append_nil, symbols_insert_self m n acc hget, hc]⟩
  | .mk kind sl :: rest, n, m, m', acc, hget, hc => by
      simp only [collect_stmt_list, Option.bind_eq_bind, Option.bind_eq_some] at hc
      obtain ⟨m1, hk, hrest⟩ := hc
      obtain ⟨a, ha, rfl⟩ := collect_kind_spec kind n m m1 acc hget hk
      obtain ⟨b, hb, rfl⟩ :=
        collect_list_spec rest n (symbols_insert m n (acc ++ a)) m' (acc ++ a)
          (symbols_get_insert m n (acc ++ a)) hrest
      refine ⟨a ++ b, ?_, ?_⟩
      · simp [spec_lets_list, ha, hb]
      · rw [symbols_insert_insert, List.append_assoc]
end

/-- C2 (amended): for a single non-extern function, the collector's map
holds, keyed by the function's name, exactly the `(name, type)` pairs of
the `let` statements encountered during the depth-first walk of the body —
the function's parameters are NOT included (`collected_parameters` is
inserted empty and never filled; the translator allocates parameter slots
separately from `stmt.parameters`, llvm_ir.rs lines 258-266). -/
theorem C2_collector_locals :
    ∀ (f : FunctionStatement) (m : SymbolsMap),
      f.is_extern = false →
      dump_global_statements [.function f] = some m →
      ∃ body lets, f.body = some body ∧
        spec_lets_list body.statements = some lets ∧
        m = [(f.name, lets)] := by
  intro f m hext hdump
  cases hft : f.ty with
  | none =>
      simp [dump_global_statements, dump_global_statements.go,
        collector_visit_function, hext, hft] at hdump
  | some ty =>
      cases ty <;>
        simp only [dump_global_statements, dump_global_statements.go,
          collector_visit_function, hext, hft, Bool.false_eq_true, if_false,
          Option.bind_eq_bind, Option.bind_eq_some, Option.some.injEq,
          reduceCtorEq, false_and, exists_false] at hdump
      cases hb : f.body with
      | none => simp [hb] at hdump
      | some body =>
          rw [hb] at hdump
          obtain ⟨m1, hcol, rfl⟩ := hdump
          obtain ⟨lets, hspec, rfl⟩ :=
            collect_list_spec body.statements f.name [(f.name, [])] m1 []
              (by simp [symbols_get]) hcol
          exact ⟨body, lets, rfl, hspec, by simp [symbols_insert]⟩

/-- Span for the C2 input. -/
def c2_loc : TokenLocation := ⟨0, 0⟩

/-- Failing-the-claim input for C2: `function f(p: i64) { let x: i64 = 1; }`
after type checking (every node typed). -/
def c2_fn : FunctionStatement :=
  { name := "f",
    parameters := [{ name := "p", declaration_type := some .i64,
                     init_exp := none, location := c2_loc, ty := some .i64 }],
    return_type := .void, is_extern := false,
    body := some (.mk
      [.mk (.let_ { name := "x", declaration_type := some .i64,
                    init_exp := some (.literal (.integer 1) none (some .i64) c2_loc),
                    location := c2_loc, ty := some .i64 }) c2_loc] c2_loc),
    location := c2_loc, ty := some (.function [(.i64, "p")] .void) }

/-- C2, counterexample: on `c2_fn` the collector produces `["x"]` for key
`"f"` — the parameter `"p"` is missing, so the output is not "parameters
in declaration order followed by the lets" (`["p", "x"]`) as claimed. -/
theorem C2_counterexample :
    (dump_global_statements [.function c2_fn]).map
        (fun m => m.map (fun e => (e.1, e.2.map StackVariable.name)))
      = some [("f", ["x"])] ∧ ("p" :: ["x"]) ≠ ["x"] :=
  ⟨rfl, by decide⟩

/-- Witness for C2: the amended theorem applied to `c2_fn` with its
computed collector map. -/
theorem C2_witness :
    ∃ body lets, c2_fn.body = some body ∧
      spec_lets_list body.statements = some lets ∧
      ([("f", [⟨"x", Ty.i64⟩])] : SymbolsMap) = [(c2_fn.name, lets)] :=
  C2_collector_locals c2_fn [("f", [⟨"x", Ty.i64⟩])] rfl rfl

/-! ### Binder — `src/libbubble/src/type_system/binder.rs`

The binder's two flat `HashMap`s carry raw pointers to declarations; as
with `Definition`, the pointers are modelled by the declaration's name, so
the maps become name lists queried by membership, and the scoped map
stores the let name as its id. The pass mutates the AST (it writes
`definition` slots), so every visit function returns the rebuilt node
together with the updated binder state; Rust panics (`unwrap` on a missing
body or init expression, the `todo!()` on `Deref` in the `MutableVisitor`
dispatch, `delete_scope` on an empty stack, the `unreachable!` arms) are
the dedicated error `panicked`. -/

inductive BinderError where
  | undeclaredVariable (location : TokenLocation) (name : String)
  | undeclaredStruct (location : TokenLocation) (name : String)
  | undeclaredFunction (location : TokenLocation) (name : String)
  | badReturn (location : TokenLocation)
  | badBreak (location : TokenLocation)
  | badContinue (location : TokenLocation)
  | notSubscriptable (location : TokenLocation)
  /-- Models a Rust panic inside the pass, not a `BinderError` the source
  can return. -/
  | panicked
  deriving Repr, DecidableEq

structure BinderState where
  functions_statements : List String
  struct_statement : List String
  local_variables : ScopedMap String
  nested_loop : Nat
  in_function : Bool

/-- Translation of `Binder::default()`: empty maps, one default scope. -/
def BinderState.default : BinderState :=
  ⟨[], [], ScopedMap.default String, 0, false⟩

/-- Translation of `Binder::begin_loop` (binder.rs lines 61-64). -/
def BinderState.begin_loop (st : BinderState) : BinderState :=
  { st with nested_loop := st.nested_loop + 1,
            local_variables := st.local_variables.new_scope }

/-- Translation of `Binder::end_loop` (binder.rs lines 66-69). -/
def BinderState.end_loop (st : BinderState) : Except BinderError BinderState :=
  match st.local_variables.delete_scope with
  | some lv => .ok { st with nested_loop := st.nested_loop - 1, local_variables := lv }
  | none => .error .panicked

/-- Frame helper shared by the scope-closing sites (`delete_scope`
followed by the panic on an empty stack). -/
def BinderState.pop_scope (st : BinderState) : Except BinderError BinderState :=
  match st.local_variables.delete_scope with
  | some lv => .ok { st with local_variables := lv }
  | none => .error .panicked

/-- Translation of `Binder::is_subscriptable` (binder.rs lines 71-82). -/
def binder_is_subscriptable : Expression → Bool
  | .literal lit _ _ _ =>
      match lit with
      | .identifier _ => true
      | .string _ => true
      | _ => false
  | .call _ _ _ _ _ => true
  | _ => false

/-- Translation of `Binder::visit_literal` (binder.rs lines 208-251). Only
the literal's own `definition` slot is written; the override does not
recurse into array-access children. -/
def bind_literal (st : BinderState) (literal_type : LiteralType)
    (definition : Option Definition) (ty : Option Ty) (location : TokenLocation) :
    Except BinderError (Expression × BinderState) :=
  match literal_type with
  | .identifier name =>
      match st.local_variables.find_symbol name with
      | some var =>
          .ok (.literal (.identifier name) (some (.localVariable var)) ty location, st)
      | none => .error (.undeclaredVariable location name)
  | .arrayAccess identifier index adef aty aloc =>
      if binder_is_subscriptable identifier then
        let name? : Option String :=
          match identifier with
          | .literal (.identifier n) _ _ _ => some n
          | .call c _ _ _ _ => some c
          | _ => none
        match name? with
        | none => .error .panicked
        | some name =>
            match st.local_variables.find_symbol name with
            | some var =>
                .ok (.literal (.arrayAccess identifier index adef aty aloc)
                      (some (.localVariable var)) ty location, st)
            | none =>
                if st.functions_statements.contains name then
                  .ok (.literal (.arrayAccess identifier index adef aty aloc)
                        (some (.function name)) ty location, st)
                else .error (.undeclaredVariable location name)
      else .error (.notSubscriptable location)
  | lt => .ok (.literal lt definition ty location, st)

mutual
/-- The `MutableVisitor::visit_expression` dispatch (visitor.rs lines
278-289) with the binder's overrides for literals and calls; the default
walkers for the other constructors. `Deref` hits `todo!()`. -/
def bind_expr (st : BinderState) : Expression → Except BinderError (Expression × BinderState)
  | .group g => do
      let (g, st) ← bind_expr st g
      .ok (.group g, st)
  | .binaryOperation left right op ty loc => do
      let (left, st) ← bind_expr st left
      match right with
      | some r => do
          let (r, st) ← bind_expr st r
          .ok (.binaryOperation left (some r) op ty loc, st)
      | none => .ok (.binaryOperation left none op ty loc, st)
  | .literal lt definition ty loc => bind_literal st lt definition ty loc
  | .call callee arguments loc ty _ =>
      -- `Binder::visit_call` (binder.rs lines 253-270): resolve the callee
      -- in the eagerly built function map, then bind the arguments.
      if st.functions_statements.contains callee then do
        let (arguments, st) ← bind_expr_list st arguments
        .ok (.call callee arguments loc ty (some (.function callee)), st)
      else .error (.undeclaredFunction loc callee)
  | .assignment left right ty loc => do
      let (left, st) ← bind_expr st left
      let (right, st) ← bind_expr st right
      .ok (.assignment left right ty loc, st)
  | .arrayInitializer values ty loc => do
      let (values, st) ← bind_expr_list st values
      .ok (.arrayInitializer values ty loc, st)
  | .addrOf e loc => do
      let (e, st) ← bind_expr st e
      .ok (.addrOf e loc, st)
  | .deref _ _ => .error .panicked
def bind_expr_list (st : BinderState) :
    List Expression → Except BinderError (List Expression × BinderState)
  | [] => .ok ([], st)
  | e :: rest => do
      let (e, st) ← bind_expr st e
      let (rest, st) ← bind_expr_list st rest
      .ok (e :: rest, st)
end

/-- Translation of `Binder::visit_let` (binder.rs lines 121-130): register
the name, then bind the init expression (`expect` panics when absent). -/
def bind_let (st : BinderState) (l : LetStatement) :
    Except BinderError (LetStatement × BinderState) :=
  match st.local_variables.insert_symbol l.name l.name with
  | none => .error .panicked
  | some lv =>
      let st := { st with local_variables := lv }
      match l.init_exp with
      | none => .error .panicked
      | some e => do
          let (e, st) ← bind_expr st e
          .ok ({ l with init_exp := some e }, st)

mutual
/-- Statement dispatch with the binder's overrides (binder.rs lines
132-206). -/
def bind_stmt_kind (st : BinderState) :
    StatementKind → Except BinderError (StatementKind × BinderState)
  | .if_ condition (.mk then_stmts tl) else_clause loc => do
      let (condition, st) ← bind_expr st condition
      let st := { st with local_variables := st.local_variables.new_scope }
      let (then_stmts, st) ← bind_stmt_list st then_stmts
      let st ← st.pop_scope
      match else_clause with
      | some (.mk else_stmts el) => do
          let st := { st with local_variables := st.local_variables.new_scope }
          let (else_stmts, st) ← bind_stmt_list st else_stmts
          let st ← st.pop_scope
          .ok (.if_ condition (.mk then_stmts tl) (some (.mk else_stmts el)) loc, st)
      | none => .ok (.if_ condition (.mk then_stmts tl) none loc, st)
  | .let_ l => do
      let (l, st) ← bind_let st l
      .ok (.let_ l, st)
  | .while_ condition (.mk body_stmts bl) loc => do
      let (condition, st) ← bind_expr st condition
      let st := st.begin_loop
      let (body_stmts, st) ← bind_stmt_list st body_stmts
      let st ← st.end_loop
      .ok (.while_ condition (.mk body_stmts bl) loc, st)
  | .for_ init_decl continue_expression modify_expression (.mk body_stmts bl) loc => do
      let st := st.begin_loop
      let (init_decl, st) ← bind_let st init_decl
      let (modify_expression, st) ← bind_expr st modify_expression
      let (continue_expression, st) ← bind_expr st continue_expression
      let (body_stmts, st) ← bind_stmt_list st body_stmts
      let st ← st.end_loop
      .ok (.for_ init_decl continue_expression modify_expression (.mk body_stmts bl) loc, st)
  | .return_ exp loc =>
      if st.in_function = false then .error (.badReturn loc)
      else
        match exp with
        | some e => do
            let (e, st) ← bind_expr st e
            .ok (.return_ (some e) loc, st)
        | none => .ok (.return_ none loc, st)
  | .break_ loc =>
      if st.nested_loop = 0 then .error (.badBreak loc)
      else .ok (.break_ loc, st)
  | .continue_ loc =>
      if st.nested_loop = 0 then .error (.badContinue loc)
      else .ok (.continue_ loc, st)
  | .expression expr naked => do
      let (expr, st) ← bind_expr st expr
      .ok (.expression expr naked, st)
def bind_stmt_list (st : BinderState) :
    List Statement → Except BinderError (List Statement × BinderState)
  | [] => .ok ([], st)
  | .mk kind loc :: rest => do
      let (kind, st) ← bind_stmt_kind st kind
      let (rest, st) ← bind_stmt_list st rest
      .ok (.mk kind loc :: rest, st)
end

/-- Translation of `Binder::visit_function` (binder.rs lines 86-109): the
function is registered in the flat map first (extern or not), then — for a
non-extern function — a scope is opened, the parameters are registered as
locals, and the body is bound immediately with `in_function` set. -/
def bind_function (st : BinderState) (f : FunctionStatement) :
    Except BinderError (FunctionStatement × BinderState) :=
  let st := { st with functions_statements := f.name :: st.functions_statements }
  if f.is_extern = false then
    let st := { st with local_variables := st.local_variables.new_scope }
    let st :=
      { st with
        local_variables :=
          f.parameters.foldl
            (fun (lv : ScopedMap String) (p : LetStatement) =>
              match lv.insert_symbol p.name p.name with
              | some lv => lv
              | none => lv)
            st.local_variables }
    let st := { st with in_function := true }
    match f.body with
    | none => .error .panicked
    | some (.mk body_stmts bl) => do
        let (body_stmts, st) ← bind_stmt_list st body_stmts
        let st := { st with in_function := false }
        let st ← st.pop_scope
        .ok ({ f with body := some (.mk body_stmts bl) }, st)
  else .ok (f, st)

/-- Translation of `Binder::visit_struct` (binder.rs lines 111-119): the
struct is registered; the field walk is the no-op `visit_type_kind`. -/
def bind_struct (st : BinderState) (s : StructStatement) :
    Except BinderError (StructStatement × BinderState) :=
  .ok (s, { st with struct_statement := s.name :: st.struct_statement })

/-- Translation of `Binder::bind_statements` (binder.rs lines 50-59) from
the default state. -/
def bind_statements (stmts : List GlobalStatement) :
    Except BinderError (List GlobalStatement × BinderState) :=
  go BinderState.default stmts
where
  go (st : BinderState) :
      List GlobalStatement → Except BinderError (List GlobalStatement × BinderState)
    | [] => .ok ([], st)
    | g :: rest => do
        let (g, st) ←
          match g with
          | .function f => do
              let (f, st) ← bind_function st f
              .ok (GlobalStatement.function f, st)
          | .struct_ s => do
              let (s, st) ← bind_struct st s
              .ok (GlobalStatement.struct_ s, st)
          | .let_ l => do
              let (l, st) ← bind_let st l
              .ok (GlobalStatement.let_ l, st)
        let (rest, st) ← go st rest
        .ok (g :: rest, st)

/-! ### Claim C3 — name resolution order for function calls -/

/-- Reduction of a `do` bind over a successful `Except`, used to unfold
the binder's computation in proofs. -/
theorem except_bind_ok {ε α β : Type} (a : α) (f : α → Except ε β) :
    (Bind.bind (Except.ok a) f : Except ε β) = f a := rfl

/-- Reduction of a `do` bind over a failed `Except`. -/
theorem except_bind_error {ε α β : Type} (e : ε) (f : α → Except ε β) :
    (Bind.bind (Except.error e) f : Except ε β) = .error e := rfl

/-- Success test for an `Except` computation. -/
def except_is_ok {ε α : Type} : Except ε α → Bool
  | .ok _ => true
  | .error _ => false

theorem except_is_ok_exists {ε α : Type} (x : Except ε α)
    (h : except_is_ok x = true) : ∃ a, x = .ok a := by
  cases x with
  | ok a => exact ⟨a, rfl⟩
  | error e => simp [except_is_ok] at h

theorem except_is_ok_bind {ε α β : Type} (x : Except ε α) (g : α → Except ε β)
    (a : α) (hx : x = .ok a) (hg : except_is_ok (g a) = true) :
    except_is_ok (Bind.bind x g) = true := by subst hx; exact hg

/-- A non-extern function whose body is a sequence of naked
zero-argument call statements — the program family over which C3's call
resolution is stated. -/
def call_only_fn (name : String) (callees : List String) (loc : TokenLocation) :
    FunctionStatement :=
  { name := name, parameters := [], return_type := .void, is_extern := false,
    body := some (.mk
      (callees.map (fun c =>
        Statement.mk (.expression (.call c [] loc none none) false) loc)) loc),
    location := loc, ty := none }

/-- Spec-side condition: walking the program in declaration order, every
call made by a function targets the function itself or a function declared
earlier — exactly the names registered in the binder's map when the body
is visited. -/
def calls_resolved : List String → List (String × List String) → Bool
  | _, [] => true
  | declared, (n, cs) :: rest =>
      cs.all (fun c => (n :: declared).contains c) && calls_resolved (n :: declared) rest

theorem bind_call_only_body (loc : TokenLocation) :
    ∀ (callees : List String) (st : BinderState),
      (∀ c ∈ callees, st.functions_statements.contains c = true) →
      bind_stmt_list st
          (callees.map (fun c =>
            Statement.mk (.expression (.call c [] loc none none) false) loc))
        = .ok
          (callees.map (fun c =>
            Statement.mk (.expression (.call c [] loc none (some (.function c))) false) loc),
           st) := by
  intro callees
  induction callees with
  | nil => intro st h; rfl
  | cons c rest ih =>
      intro st h
      have hc := h c (by simp)
      have hrest := ih st (fun c hm => h c (by simp [hm]))
      simp only [List.map_cons, bind_stmt_list, bind_stmt_kind, bind_expr,
        bind_expr_list, hc, if_true, except_bind_ok, hrest]

theorem bind_call_only_go (loc : TokenLocation) :
    ∀ (fns : List (String × List String)) (st : BinderState),
      calls_resolved st.functions_statements fns = true →
      except_is_ok
        (bind_statements.go st (fns.map (fun p => .function (call_only_fn p.1 p.2 loc))))
        = true := by
  intro fns
  induction fns with
  | nil => intro st _; rfl
  | cons p rest ih =>
      intro st h
      obtain ⟨n, cs⟩ := p
      simp only [calls_resolved, Bool.and_eq_true, List.all_eq_true] at h
      obtain ⟨hcalls, hrest⟩ := h
      have hbody :=
        bind_call_only_body loc cs
          { st with
              functions_statements := n :: st.functions_statements,
              local_variables := st.local_variables.new_scope,
              in_function := true }
          (fun c hm => by simpa using hcalls c hm)
      obtain ⟨r, hr⟩ :=
        except_is_ok_exists _
          (ih { st with
                  functions_statements := n :: st.functions_statements,
                  in_function := false }
              hrest)
      simp only [List.map_cons, bind_statements.go, bind_function, call_only_fn,
        List.foldl_nil, except_bind_ok, hbody]
      simp only [ScopedMap.new_scope, ScopedMap.delete_scope, BinderState.pop_scope,
        except_bind_ok, if_true]
      exact except_is_ok_bind _ _ r hr rfl

/-- C3 (amended): the binder's function map is filled as global statements
are visited, and each non-extern function's body is bound immediately
after the function itself is registered. A call therefore resolves
exactly when its callee is the enclosing function itself (recursion) or a
function declared earlier at top level; this theorem proves the success
half on call-only programs, and `C3_counterexample` shows a forward
reference — callee declared later at top level — failing with
`UndeclaredFunction`. -/
theorem C3_backward_and_recursive_calls_bind
    (fns : List (String × List String)) (loc : TokenLocation)
    (h : calls_resolved [] fns = true) :
    except_is_ok
      (bind_statements (fns.map (fun p => .function (call_only_fn p.1 p.2 loc))))
      = true :=
  bind_call_only_go loc fns BinderState.default h

/-- C3, counterexample: in `function f() { g(); } function g() { }` the
callee `g` is declared at top level, yet binding fails with
`UndeclaredFunction`, because `f`'s body is bound before `g` is visited —
the claim that binding succeeds for every top-level-declared callee
(including forward references) is false. -/
theorem C3_counterexample :
    bind_statements
        [.function (call_only_fn "f" ["g"] ⟨0, 0⟩),
         .function (call_only_fn "g" [] ⟨0, 0⟩)]
      = .error (.undeclaredFunction ⟨0, 0⟩ "g") :=
  rfl

/-- Witness for C3: the amended theorem applied to
`function g() { } function f() { g(); f(); }` — a backward reference and
recursion. -/
theorem C3_witness :
    calls_resolved [] [("g", []), ("f", ["g", "f"])] = true ∧
    except_is_ok
      (bind_statements
        ([("g", ([] : List String)), ("f", ["g", "f"])].map
          (fun p => .function (call_only_fn p.1 p.2 ⟨0, 0⟩))))
      = true :=
  ⟨by decide,
   C3_backward_and_recursive_calls_bind [("g", []), ("f", ["g", "f"])] ⟨0, 0⟩ (by decide)⟩

/-! ### Expression type setter — `src/libbubble/src/type_system/inference.rs`
lines 7-73

`ExpressionTypeSetter` is the mutating sub-visitor with a fixed target
type. It overrides binary operations (recurse then set), literals (set the
inner array-access or null node, then the literal), assignments and calls
(set only, no recursion), and array initializers (recurse into elements
then set the outer `Array` type); the default walkers cover the rest, so
`Deref` hits the dispatch `todo!()` — modelled as `none`. -/

mutual
def set_type_recursively (new_type : Ty) : Expression → Option Expression
  | .group g => do
      let g ← set_type_recursively new_type g
      some (.group g)
  | .binaryOperation left right op _ loc => do
      let left ← set_type_recursively new_type left
      match right with
      | some r => do
          let r ← set_type_recursively new_type r
          some (.binaryOperation left (some r) op (some new_type) loc)
      | none => some (.binaryOperation left none op (some new_type) loc)
  | .literal lt definition _ loc =>
      let lt :=
        match lt with
        | .arrayAccess identifier index adef _ aloc =>
            LiteralType.arrayAccess identifier index adef (some new_type) aloc
        | .null _ nloc => .null (some new_type) nloc
        | other => other
      some (.literal lt definition (some new_type) loc)
  | .call callee arguments loc _ definition =>
      some (.call callee arguments loc (some new_type) definition)
  | .assignment left right _ loc =>
      some (.assignment left right (some new_type) loc)
  | .arrayInitializer values _ loc => do
      let values ← set_type_list new_type values
      some (.arrayInitializer values (some (.array values.length new_type)) loc)
  | .addrOf e loc => do
      let e ← set_type_recursively new_type e
      some (.addrOf e loc)
  | .deref _ _ => none
def set_type_list (new_type : Ty) : List Expression → Option (List Expression)
  | [] => some []
  | e :: rest => do
      let e ← set_type_recursively new_type e
      let rest ← set_type_list new_type rest
      some (e :: rest)
end

/-! ### Type checker, expression fragment —
`src/libbubble/src/type_system/type_checker.rs`

`visit_expression` and the expression cases of the checker. Since every
expression case writes `current_type` before any later read, the
`current_type` threading collapses: the embedded checker returns the
computed type together with the rebuilt (annotated) node.
Declaration-pointer dereferences (`get_local_variable_def`,
`get_function_def`, `get_struct_def`) go through an environment holding
what the pointed-to declarations carry at check time. Rust panics
(`expect`/`unreachable!`/`todo!` on an empty array initializer) are the
dedicated error `panicked`. -/

/-- Error sum of the type checker (type_system/errors.rs lines 8-47) with
`u32` counts as `Nat` and an extra `panicked` marker for Rust panics. -/
inductive TypeCheckerError where
  | badInit (left right : Ty)
  | nonBoolCondition (t : Ty)
  | badAssigment (left right : Ty)
  | notCallable (d : Definition)
  | badParameterCount (expected got : Nat)
  | badParameter (name : String) (expected_type got : Ty)
  | incompatibleOperationType (operator : OpType) (left_ty right_ty : Ty)
  | returnTypeMismatch (got expected : Ty)
  | inferenceError (location : TokenLocation)
  | differentTypeInArrayInitializer (first found : Ty) (position : Nat)
  | nonSubscriptable (ty : Ty)
  | indexNotInteger (got : Ty)
  | derefNonPointer (t : Ty)
  /-- Models a Rust panic inside the pass, not an error the source returns. -/
  | panicked

/-- What a `*const FunctionStatement` target carries when the checker
dereferences it: the annotated parameters, the syntactic return type and
the node's `ty` slot. -/
structure FnInfo where
  parameters : List (String × Option Ty)
  return_type : TypeKind
  ty : Option Ty

/-- Declaration environment standing for the `Definition` pointer targets. -/
structure TcEnv where
  lets : List (String × Option Ty)
  fns : List (String × FnInfo)
  structs : List (String × Option Ty)

/-- Arithmetic-operator test of type_checker.rs lines 329-336. -/
def op_is_arithmetic : OpType → Bool
  | .plus | .minus | .multiply | .divide | .modulo => true
  | _ => false

/-- Name held by a `Definition`. -/
def Definition.name : Definition → String
  | .struct_ n => n
  | .localVariable n => n
  | .function n => n

/-- Parameter compatibility loop of `visit_call` (type_checker.rs lines
269-285): zips computed argument types with parameters; on a mismatch the
reported `got` is the checker's `current_type` — the type of the LAST
visited argument — not the mismatching one. Returns the first error. -/
def tc_check_parameters :
    List Ty → List (String × Option Ty) → Option Ty → Option TypeCheckerError
  | expr_type :: ts, (pname, pty) :: ps, current =>
      match pty with
      | none => some .panicked
      | some expected_type =>
          if expr_type.is_compatible_with expected_type = false then
            some (.badParameter pname expected_type
              (match current with
               | some c => c
               | none => .void))
          else tc_check_parameters ts ps current
  | _, _, _ => none

mutual
/-- Translation of the `MutableVisitor::visit_expression` dispatch plus
the checker's expression cases (`visit_binary_operation` lines 300-368,
`visit_call` 249-293, `visit_assignment` 222-247, `visit_addrof` 508-516,
`visit_deref` 518-530, `visit_literal` 370-465, `visit_array_initializer`
467-506). -/
def tc_expr (env : TcEnv) : Expression → Except TypeCheckerError (Expression × Ty)
  | .group g => do
      let (g, t) ← tc_expr env g
      .ok (.group g, t)
  | .binaryOperation left right op _ loc =>
      match right with
      | some right_exp => do
          let (left, left_ty) ← tc_expr env left
          let (right_exp, right_ty) ← tc_expr env right_exp
          if left_ty.is_compatible_with right_ty = false then
            .error (.incompatibleOperationType op left_ty right_ty)
          else if op_is_arithmetic op then
            .ok (.binaryOperation left (some right_exp) op (some right_ty) loc, right_ty)
          else
            .ok (.binaryOperation left (some right_exp) op (some .bool) loc, .bool)
      | none =>
          match op with
          | .minus => do
              let (left, t) ← tc_expr env left
              .ok (.binaryOperation left none .minus (some t) loc, t)
          | .not_ => do
              let (left, _) ← tc_expr env left
              .ok (.binaryOperation left none .not_ (some .bool) loc, .bool)
          | _ => .error .panicked
  | .literal lt definition ty loc => tc_literal env lt definition ty loc
  | .call callee arguments loc ty definition =>
      match definition with
      | none => .error .panicked
      | some d =>
          if d.is_function then
            match env.fns.lookup d.name with
            | none => .error .panicked
            | some info =>
                if arguments.length ≠ info.parameters.length then
                  .error (.badParameterCount info.parameters.length arguments.length)
                else do
                  let (arguments, parameter_types) ← tc_expr_list env arguments
                  match tc_check_parameters parameter_types info.parameters
                      (parameter_types.getLast?) with
                  | some e => .error e
                  | none =>
                      .ok (.call callee arguments loc ty definition,
                           Ty.from_type_kind info.return_type)
          else .error (.notCallable d)
  | .assignment left right ty loc => do
      let (left, lhs_ty) ← tc_expr env left
      let (right, rhs_ty) ← tc_expr env right
      if lhs_ty.is_compatible_with rhs_ty = false then
        .error (.badAssigment lhs_ty rhs_ty)
      else
        .ok (.assignment left right ty loc, lhs_ty)
  | .arrayInitializer values _ loc =>
      match values with
      | [] => .error .panicked
      | v0 :: rest => do
          let (_, first_type) ← tc_expr env v0
          let values ← tc_init_loop env first_type 0 (v0 :: rest)
          .ok (.arrayInitializer values (some (.array values.length first_type)) loc,
               .array values.length first_type)
  | .addrOf e loc => do
      let (e, t) ← tc_expr env e
      .ok (.addrOf e loc, .ptr t)
  | .deref e loc => do
      let (e, t) ← tc_expr env e
      match t with
      | .ptr pointee => .ok (.deref e loc, pointee)
      | t => .error (.derefNonPointer t)

/-- Translation of `visit_literal` (type_checker.rs lines 370-465). The
`Null` arm returns early without annotating the literal; the array-access
arm rewrites the base with the `ExpressionTypeSetter` and requires an
integer index. -/
def tc_literal (env : TcEnv) (lt : LiteralType) (definition : Option Definition)
    (ty : Option Ty) (loc : TokenLocation) :
    Except TypeCheckerError (Expression × Ty)  :=
  match lt with
  | .true => .ok (.literal .true definition (some .bool) loc, .bool)
  | .false => .ok (.literal .false definition (some .bool) loc, .bool)
  | .integer n => .ok (.literal (.integer n) definition (some .int) loc, .int)
  | .float => .ok (.literal .float definition (some .float) loc, .float)
  | .string s => .ok (.literal (.string s) definition (some .string) loc, .string)
  | .identifier name =>
      match definition with
      | none => .error .panicked
      | some (.struct_ sname) =>
          match env.structs.lookup sname with
          | some (some t) =>
              .ok (.literal (.identifier name) definition (some t) loc, t)
          | _ => .error .panicked
      | some (.localVariable vname) =>
          match env.lets.lookup vname with
          | some (some t) =>
              .ok (.literal (.identifier name) definition (some t) loc, t)
          | _ => .error .panicked
      | some (.function fname) =>
          match env.fns.lookup fname with
          | some info =>
              match info.ty with
              | some t => .ok (.literal (.identifier name) definition (some t) loc, t)
              | none => .error .panicked
          | none => .error .panicked
  | .arrayAccess identifier index adef _ aloc =>
      match definition with
      | none => .error .panicked
      | some d => do
          let base_ty ←
            match d with
            | .struct_ _ => .error TypeCheckerError.panicked
            | .localVariable vname =>
                match env.lets.lookup vname with
                | some (some t) => .ok t
                | _ => .error .panicked
            | .function fname =>
                match env.fns.lookup fname with
                | some info =>
                    match info.ty with
                    | some (.function _ return_type) => .ok return_type
                    | some _ => .error .panicked
                    | none => .error .panicked
                | none => .error .panicked
          match base_ty with
          | .array _ array_type => do
              let identifier ←
                match set_type_recursively array_type identifier with
                | some e => .ok e
                | none => .error TypeCheckerError.panicked
              let (index, index_type) ← tc_expr env index
              if index_type.is_integer = false then
                .error (.indexNotInteger index_type)
              else
                .ok (.literal
                      (.arrayAccess identifier index adef (some array_type) aloc)
                      definition (some array_type) loc,
                     array_type)
          | t => .error (.nonSubscriptable t)
  | .null nty nloc =>
      .ok (.literal (.null nty nloc) definition ty loc, .null none)

/-- Argument loop of `visit_call` (type_checker.rs lines 260-267): visit
every argument, collecting the computed types. -/
def tc_expr_list (env : TcEnv) :
    List Expression → Except TypeCheckerError (List Expression × List Ty)
  | [] => .ok ([], [])
  | e :: rest => do
      let (e, t) ← tc_expr env e
      let (rest, ts) ← tc_expr_list env rest
      .ok (e :: rest, t :: ts)

/-- Enumerated element loop of `visit_array_initializer` (type_checker.rs
lines 479-494): each element is visited and its type compared
(`PartialEq`, here `Ty.beq`) with the first type. In the source the loop
runs over the vector after the first element has been visited and updated
in place, so iteration 0 re-visits its own output; the checker computes
only from node structure, literal payloads, `definition` slots and the
environment — never from the `ty` slots it writes — so that re-visit
returns the same node and type, and the loop is modelled over the
original elements. -/
def tc_init_loop (env : TcEnv) (first_type : Ty) (i : Nat) :
    List Expression → Except TypeCheckerError (List Expression)
  | [] => .ok []
  | e :: rest => do
      let (e, t) ← tc_expr env e
      if Ty.beq t first_type = false then
        .error (.differentTypeInArrayInitializer first_type t i)
      else do
        let rest ← tc_init_loop env first_type (i + 1) rest
        .ok (e :: rest)
end

/-! ### Claim C8 — array initializer typing -/

/-- Element relation for C8: the element checks to the given node with a
type that equals (`PartialEq`) the first element's type. -/
def c8_elem_ok (env : TcEnv) (t0 : Ty) (e e' : Expression) : Prop :=
  ∃ t, tc_expr env e = .ok (e', t) ∧ Ty.beq t t0 = true

theorem tc_init_loop_all (env : TcEnv) (t0 : Ty) :
    ∀ (es es' : List Expression) (i : Nat),
      List.Forall₂ (c8_elem_ok env t0) es es' →
      tc_init_loop env t0 i es = .ok es' := by
  intro es es' i h
  induction h generalizing i with
  | nil => rfl
  | cons hd tl ih =>
      obtain ⟨t, he, hbeq⟩ := hd
      simp [tc_init_loop, he, hbeq, ih, except_bind_ok]

theorem tc_init_loop_mismatch (env : TcEnv) (t0 : Ty) :
    ∀ (pre pre' : List Expression),
      List.Forall₂ (c8_elem_ok env t0) pre pre' →
      ∀ (bad bad' : Expression) (tb : Ty) (post : List Expression) (i : Nat),
        tc_expr env bad = .ok (bad', tb) →
        Ty.beq tb t0 = false →
        tc_init_loop env t0 i (pre ++ bad :: post)
          = .error (.differentTypeInArrayInitializer t0 tb (i + pre.length)) := by
  intro pre pre' h
  induction h with
  | nil =>
      intro bad bad' tb post i hbad hne
      simp [tc_init_loop, hbad, hne, except_bind_ok]
  | cons hd tl ih =>
      intro bad bad' tb post i hbad hne
      obtain ⟨t, he, hbeq⟩ := hd
      rw [List.cons_append]
      simp only [tc_init_loop, he, hbeq, except_bind_ok]
      rw [ih bad bad' tb post (i + 1) hbad hne]
      simp [except_bind_error]
      omega

/-- C8: an array initializer with at least one element types as
`Array{size = number of elements, elem = first element's type}` when every
element's computed type equals the first's, and otherwise fails with
`DifferentTypeInArrayInitializer` carrying the first type, the first
differing element's type, and that element's (0-based) position. -/
theorem C8_array_initializer_types :
    (∀ (env : TcEnv) (v0 : Expression) (rest : List Expression) (ty : Option Ty)
        (loc : TokenLocation) (v0' : Expression) (t0 : Ty) (out : List Expression),
        tc_expr env v0 = .ok (v0', t0) →
        List.Forall₂ (c8_elem_ok env t0) (v0 :: rest) out →
        tc_expr env (.arrayInitializer (v0 :: rest) ty loc)
          = .ok (.arrayInitializer out (some (.array out.length t0)) loc,
                 .array out.length t0)) ∧
    (∀ (env : TcEnv) (v0 : Expression) (rest pre pre' post : List Expression)
        (ty : Option Ty) (loc : TokenLocation) (v0' bad bad' : Expression)
        (t0 tb : Ty),
        tc_expr env v0 = .ok (v0', t0) →
        v0 :: rest = pre ++ bad :: post →
        List.Forall₂ (c8_elem_ok env t0) pre pre' →
        tc_expr env bad = .ok (bad', tb) →
        Ty.beq tb t0 = false →
        tc_expr env (.arrayInitializer (v0 :: rest) ty loc)
          = .error (.differentTypeInArrayInitializer t0 tb pre.length)) := by
  constructor
  · intro env v0 rest ty loc v0' t0 out h0 hall
    simp only [tc_expr, h0, except_bind_ok,
      tc_init_loop_all env t0 (v0 :: rest) out 0 hall]
  · intro env v0 rest pre pre' post ty loc v0' bad bad' t0 tb h0 hsplit hpre hbad hne
    simp only [tc_expr, h0, except_bind_ok, hsplit,
      tc_init_loop_mismatch env t0 pre pre' hpre bad bad' tb post 0 hbad hne]
    simp [except_bind_error]

/-- Witness for C8: the success half on `[1, 2]` (both `Int`, result
`Array{2, Int}`), the failure half on `[1, true]` (`Bool` differs from
`Int` at position 1). -/
theorem C8_witness :
    tc_expr ⟨[], [], []⟩
        (.arrayInitializer
          [.literal (.integer 1) none none ⟨0, 0⟩,
           .literal (.integer 2) none none ⟨0, 0⟩] none ⟨0, 0⟩)
      = .ok (.arrayInitializer
              [.literal (.integer 1) none (some .int) ⟨0, 0⟩,
               .literal (.integer 2) none (some .int) ⟨0, 0⟩]
              (some (.array 2 .int)) ⟨0, 0⟩,
             .array 2 .int) ∧
    tc_expr ⟨[], [], []⟩
        (.arrayInitializer
          [.literal (.integer 1) none none ⟨0, 0⟩,
           .literal .true none none ⟨0, 0⟩] none ⟨0, 0⟩)
      = .error (.differentTypeInArrayInitializer .int .bool 1) := by
  constructor
  · exact C8_array_initializer_types.1 ⟨[], [], []⟩
      (.literal (.integer 1) none none ⟨0, 0⟩)
      [.literal (.integer 2) none none ⟨0, 0⟩] none ⟨0, 0⟩
      (.literal (.integer 1) none (some .int) ⟨0, 0⟩) .int
      [.literal (.integer 1) none (some .int) ⟨0, 0⟩,
       .literal (.integer 2) none (some .int) ⟨0, 0⟩]
      rfl
      (.cons ⟨.int, rfl, by decide⟩ (.cons ⟨.int, rfl, by decide⟩ .nil))
  · exact C8_array_initializer_types.2 ⟨[], [], []⟩
      (.literal (.integer 1) none none ⟨0, 0⟩)
      [.literal .true none none ⟨0, 0⟩]
      [.literal (.integer 1) none none ⟨0, 0⟩]
      [.literal (.integer 1) none (some .int) ⟨0, 0⟩]
      [] none ⟨0, 0⟩
      (.literal (.integer 1) none (some .int) ⟨0, 0⟩)
      (.literal .true none none ⟨0, 0⟩)
      (.literal .true none (some .bool) ⟨0, 0⟩)
      .int .bool rfl rfl
      (.cons ⟨.int, rfl, by decide⟩ .nil) rfl (by decide)

/-! ### Integer inference, expression level —
`src/libbubble/src/type_system/inference.rs` lines 107-308

`IntegerInference` threads one mutable flag `is_int`; the expression-level
visitors are embedded as functions from the incoming flag to the rebuilt
node and the outgoing flag. `get_type` on an untyped node, the
`unreachable!`/`unwrap` arms and the dispatch `todo!()` on `Deref` are the
error `panicked`; `visit_call` can also return the source's `BadParameter`
and `NotCallable` errors. -/

/-- Translation of `impl Typable for Expression::get_type` (typables.rs
lines 188-205): `AddrOf`/`Deref` are `todo!()`, an unset slot panics —
both are `none`. -/
def Expression.get_type : Expression → Option Ty
  | .group g => g.get_type
  | .binaryOperation _ _ _ ty _ => ty
  | .literal _ _ ty _ => ty
  | .call _ _ _ ty _ => ty
  | .assignment _ _ ty _ => ty
  | .arrayInitializer _ ty _ => ty
  | .addrOf _ _ => none
  | .deref _ _ => none
  termination_by structural e => e

/-! Structure size of an expression, counting constructors but not
annotation slots. The inference pass and the type setter rewrite only
annotations, so they preserve this size; it is the termination measure of
`infer_expr`, whose `(concrete ⊕ int)` arm re-visits the node it has just
rewritten. -/
mutual
def esize : Expression → Nat
  | .group e => esize e + 1
  | .binaryOperation left right _ _ _ =>
      esize left + (match right with | some e => esize e | none => 0) + 1
  | .literal lt _ _ _ => lsize lt + 1
  | .call _ arguments _ _ _ => esize_list arguments + 1
  | .assignment left right _ _ => esize left + esize right + 1
  | .arrayInitializer values _ _ => esize_list values + 1
  | .addrOf e _ => esize e + 1
  | .deref e _ => esize e + 1
def lsize : LiteralType → Nat
  | .arrayAccess identifier index _ _ _ => esize identifier + esize index + 1
  | _ => 1
def esize_list : List Expression → Nat
  | [] => 0
  | e :: rest => esize e + esize_list rest + 1
end

/-- Short-circuiting `values.iter().any(|e| e.get_type().is_integer())`
of `visit_array_initializer` (inference.rs line 305): panics (`none`) on
the first untyped element it reaches. -/
def any_integer : List Expression → Option Bool
  | [] => some false
  | e :: rest =>
      match e.get_type with
      | none => none
      | some t => if t.is_integer then some true else any_integer rest

/-- Translation of `IntegerInference::visit_literal` (inference.rs lines
222-243): an `Integer` or `ArrayAccess` literal still typed `Int` raises
the flag (a concretely typed one leaves the incoming flag unchanged);
every other literal kind clears it. An `ArrayAccess` index still typed
`Int` is rewritten to `I64` with the type setter. -/
def infer_literal (is_int : Bool) (lt : LiteralType) (definition : Option Definition)
    (ty : Option Ty) (loc : TokenLocation) :
    Except TypeCheckerError (Expression × Bool) := do
  let is_int ←
    match lt with
    | .integer _ | .arrayAccess _ _ _ _ _ =>
        match ty with
        | none => .error TypeCheckerError.panicked
        | some t =>
            match t with
            | .int => .ok true
            | _ => .ok is_int
    | _ => .ok false
  match lt with
  | .arrayAccess identifier index adef aty aloc =>
      match index.get_type with
      | none => .error .panicked
      | some it =>
          match it with
          | .int =>
              match set_type_recursively .i64 index with
              | some index =>
                  .ok (.literal (.arrayAccess identifier index adef aty aloc)
                        definition ty loc, is_int)
              | none => .error .panicked
          | _ =>
              .ok (.literal (.arrayAccess identifier index adef aty aloc)
                    definition ty loc, is_int)
  | lt => .ok (.literal lt definition ty loc, is_int)

mutual
/-- Translation of the expression-level `IntegerInference` dispatch:
`visit_binary_operation` (inference.rs lines 245-283), `visit_assignment`
(285-299), `visit_call` (158-194), `visit_array_initializer` (301-307),
`visit_literal` via `infer_literal`, and the default walkers for group and
address-of. The `(concrete ⊕ int)` arm re-visits the right operand it has
just processed; the source re-visits in place, and since the pass rewrites
only annotation slots the structure size is unchanged — the embedding
re-visits under a size guard that always holds. -/
def infer_expr (env : TcEnv) (is_int : Bool) :
    Expression → Except TypeCheckerError (Expression × Bool)
  | .group g => do
      let (g, is_int) ← infer_expr env is_int g
      .ok (.group g, is_int)
  | .literal lt definition ty loc => infer_literal is_int lt definition ty loc
  | .binaryOperation left right op ty loc =>
      match right with
      | none => do
          let (left, is_int) ← infer_expr env is_int left
          .ok (.binaryOperation left none op ty loc, is_int)
      | some right_exp => do
          let (left2, is_int_left) ← infer_expr env is_int left
          let (right2, is_int_right) ← infer_expr env is_int_left right_exp
          match is_int_left, is_int_right with
          | true, true =>
              (match set_type_recursively .i64 left2,
                     set_type_recursively .i64 right2 with
               | some left3, some right3 =>
                   .ok (.binaryOperation left3 (some right3) op ty loc, is_int_right)
               | _, _ => .error .panicked)
          | true, false =>
              (match right2.get_type with
               | none => .error .panicked
               | some rty =>
                   match set_type_recursively rty left2 with
                   | some left3 =>
                       .ok (.binaryOperation left3 (some right2) op ty loc, is_int_right)
                   | none => .error .panicked)
          | false, true =>
              if hsz : esize right2 = esize right_exp then do
                let (right3, is_int2) ← infer_expr env is_int_right right2
                if is_int2 then
                  match left2.get_type with
                  | none => .error .panicked
                  | some lty =>
                      match set_type_recursively lty right3 with
                      | some right4 =>
                          .ok (.binaryOperation left2 (some right4) op ty loc, is_int2)
                      | none => .error .panicked
                else
                  .ok (.binaryOperation left2 (some right3) op ty loc, is_int2)
              else .error .panicked
          | false, false =>
              .ok (.binaryOperation left2 (some right2) op ty loc, is_int_right)
  | .assignment left right ty loc => do
      let variable_ty ←
        match left with
        | .literal _ _ (some t) _ => .ok t
        | _ => .error TypeCheckerError.panicked
      let (right, is_int) ← infer_expr env is_int right
      if is_int then
        match set_type_recursively variable_ty right with
        | some right => .ok (.assignment left right ty loc, is_int)
        | none => .error .panicked
      else
        .ok (.assignment left right ty loc, is_int)
  | .call callee arguments loc ty definition =>
      match definition with
      | none => .error .panicked
      | some d =>
          if d.is_function then
            match env.fns.lookup d.name with
            | none => .error .panicked
            | some info => do
                let (arguments, is_int) ←
                  infer_call_args env is_int d.name info.parameters arguments
                .ok (.call callee arguments loc ty definition, is_int)
          else .error (.notCallable d)
  | .arrayInitializer values ty loc =>
      match any_integer values with
      | some is_int => .ok (.arrayInitializer values ty loc, is_int)
      | none => .error .panicked
  | .addrOf e loc => do
      let (e, is_int) ← infer_expr env is_int e
      .ok (.addrOf e loc, is_int)
  | .deref _ _ => .error .panicked
  termination_by e => esize e
  decreasing_by
    all_goals simp_all [esize, esize_list, lsize]
    all_goals omega

/-- Argument loop of `IntegerInference::visit_call` (inference.rs lines
160-188): visit the argument; when the flag is set, fetch the parameter
type (`unwrap` panic when missing or untyped), require it compatible with
`Int` (else `BadParameter` carrying the function's name), rewrite the
argument with the setter and clear the flag. -/
def infer_call_args (env : TcEnv) (is_int : Bool) (fname : String)
    (parameters : List (String × Option Ty)) :
    List Expression → Except TypeCheckerError (List Expression × Bool)
  | [] => .ok ([], is_int)
  | arg :: rest => do
      let (arg, is_int) ← infer_expr env is_int arg
      if is_int then
        match parameters with
        | [] => .error .panicked
        | (_, pty) :: ps =>
            match pty with
            | none => .error .panicked
            | some expected_type =>
                if expected_type.is_compatible_with .int = false then
                  .error (.badParameter fname expected_type .int)
                else
                  match set_type_recursively expected_type arg with
                  | some arg => do
                      let (rest, is_int) ← infer_call_args env false fname ps rest
                      .ok (arg :: rest, is_int)
                  | none => .error .panicked
      else
        match parameters with
        | [] => .error .panicked
        | _ :: ps => do
            let (rest, is_int) ← infer_call_args env is_int fname ps rest
            .ok (arg :: rest, is_int)
  termination_by args => esize_list args
  decreasing_by
    all_goals simp_all [esize, esize_list, lsize]
    all_goals omega
end

/-! ### Claim C9 — integer inference on binary operations -/

theorem infer_literal_get_type (is_int : Bool) (lt : LiteralType)
    (definition : Option Definition) (ty : Option Ty) (loc : TokenLocation)
    (e : Expression) (f : Bool)
    (h : infer_literal is_int lt definition ty loc = .ok (e, f)) :
    e.get_type = ty := by
  cases lt <;>
    simp only [infer_literal, except_bind_ok, except_bind_error] at h <;>
    first
    | (obtain ⟨rfl, rfl⟩ := h; rfl)
    | (cases ty with
       | none => simp at h
       | some t =>
           cases t <;> simp at h <;> obtain ⟨rfl, rfl⟩ := h <;> rfl)
    | skip
  case arrayAccess identifier index adef aty aloc =>
    cases hty : ty with
    | none => rw [hty] at h; simp at h
    | some t =>
        rw [hty] at h
        cases hit : index.get_type with
        | none => cases t <;> simp [hit] at h
        | some it =>
            rw [hit] at h
            cases it <;> cases t <;> simp at h <;>
              first
              | (obtain ⟨rfl, rfl⟩ := h; simp [Expression.get_type, hty])
              | (cases hset : set_type_recursively .i64 index with
                 | none => rw [hset] at h; simp at h
                 | some idx2 =>
                     rw [hset] at h
                     simp at h
                     obtain ⟨rfl, rfl⟩ := h
                     simp [Expression.get_type, hty])

/-- Mirror of `visit_literal`'s flag update (inference.rs lines 223-232):
an `Integer` or `ArrayAccess` literal still typed `Int` raises the flag; a
concretely typed one inherits the incoming flag; every other kind clears
it. This is the pass's own classification of a side as "int" versus
"concrete". -/
def literal_int_flag (is_int : Bool) (lt : LiteralType) (ty : Option Ty) : Bool :=
  match lt with
  | .integer _ | .arrayAccess _ _ _ _ _ =>
      match ty with
      | some .int => true
      | _ => is_int
  | _ => false

theorem infer_literal_flag (is_int : Bool) (lt : LiteralType)
    (definition : Option Definition) (ty : Option Ty) (loc : TokenLocation)
    (e : Expression) (f : Bool)
    (h : infer_literal is_int lt definition ty loc = .ok (e, f)) :
    f = literal_int_flag is_int lt ty := by
  cases lt <;>
    simp only [infer_literal, literal_int_flag, except_bind_ok, except_bind_error] at h ⊢ <;>
    first
    | (obtain ⟨rfl, rfl⟩ := h; rfl)
    | (cases ty with
       | none => simp at h
       | some t =>
           cases t <;> simp at h <;> obtain ⟨rfl, rfl⟩ := h <;> rfl)
    | skip
  case arrayAccess identifier index adef aty aloc =>
    cases hty : ty with
    | none => rw [hty] at h; simp at h
    | some t =>
        rw [hty] at h
        cases hit : index.get_type with
        | none => cases t <;> simp [hit] at h
        | some it =>
            rw [hit] at h
            cases it <;> cases t <;> simp at h <;>
              first
              | (obtain ⟨rfl, rfl⟩ := h; rfl)
              | (cases hset : set_type_recursively .i64 index with
                 | none => rw [hset] at h; simp at h
                 | some idx2 =>
                     rw [hset] at h
                     simp at h
                     obtain ⟨rfl, rfl⟩ := h
                     rfl)

/-- C9: for a binary operation between two literal operands, classified
the way the pass itself classifies them (`is_int` flag — an `Integer` or
`ArrayAccess` literal still typed `Int` is an "int" side, a literal whose
visit leaves the flag false is a "concrete" side): (1) int ⊕ int — both
sides are set to `I64`; (2) int ⊕ concrete — the int side is set to the
concrete side's type, which is preserved; (3) concrete ⊕ int — the int
side (here the right) is set to the concrete side's type; (4) neither
side int — both operands keep their types. -/
theorem C9_binary_integer_inference :
    (∀ (env : TcEnv) (st : Bool) (n m : Int) (d1 d2 : Option Definition)
        (loc1 loc2 loc : TokenLocation) (op : OpType) (ty : Option Ty),
      infer_expr env st
          (.binaryOperation (.literal (.integer n) d1 (some .int) loc1)
            (some (.literal (.integer m) d2 (some .int) loc2)) op ty loc)
        = .ok (.binaryOperation (.literal (.integer n) d1 (some .i64) loc1)
            (some (.literal (.integer m) d2 (some .i64) loc2)) op ty loc, true)) ∧
    (∀ (env : TcEnv) (st : Bool) (n : Int) (d1 : Option Definition)
        (loc1 : TokenLocation) (lt2 : LiteralType) (d2 : Option Definition)
        (c : Ty) (loc2 loc : TokenLocation) (op : OpType) (ty : Option Ty)
        (e2 : Expression),
      infer_literal true lt2 d2 (some c) loc2 = .ok (e2, false) →
      infer_expr env st
          (.binaryOperation (.literal (.integer n) d1 (some .int) loc1)
            (some (.literal lt2 d2 (some c) loc2)) op ty loc)
        = .ok (.binaryOperation (.literal (.integer n) d1 (some c) loc1)
            (some e2) op ty loc, false)) ∧
    (∀ (env : TcEnv) (st : Bool) (lt1 : LiteralType) (d1 : Option Definition)
        (c : Ty) (loc1 : TokenLocation) (n : Int) (d2 : Option Definition)
        (loc2 loc : TokenLocation) (op : OpType) (ty : Option Ty)
        (e1 : Expression),
      infer_literal st lt1 d1 (some c) loc1 = .ok (e1, false) →
      infer_expr env st
          (.binaryOperation (.literal lt1 d1 (some c) loc1)
            (some (.literal (.integer n) d2 (some .int) loc2)) op ty loc)
        = .ok (.binaryOperation e1
            (some (.literal (.integer n) d2 (some c) loc2)) op ty loc, true)) ∧
    (∀ (env : TcEnv) (st : Bool) (lt1 : LiteralType) (d1 : Option Definition)
        (ty1 : Option Ty) (loc1 : TokenLocation) (lt2 : LiteralType)
        (d2 : Option Definition) (ty2 : Option Ty) (loc2 loc : TokenLocation)
        (op : OpType) (ty : Option Ty) (e1 e2 : Expression),
      infer_literal st lt1 d1 ty1 loc1 = .ok (e1, false) →
      infer_literal false lt2 d2 ty2 loc2 = .ok (e2, false) →
      infer_expr env st
          (.binaryOperation (.literal lt1 d1 ty1 loc1)
            (some (.literal lt2 d2 ty2 loc2)) op ty loc)
        = .ok (.binaryOperation e1 (some e2) op ty loc, false) ∧
      e1.get_type = ty1 ∧ e2.get_type = ty2) := by
  refine ⟨?_, ?_, ?_, ?_⟩
  · intro env st n m d1 d2 loc1 loc2 loc op ty
    have hL : infer_literal st (.integer n) d1 (some .int) loc1
        = .ok (.literal (.integer n) d1 (some .int) loc1, true) := rfl
    have hR : infer_literal true (.integer m) d2 (some .int) loc2
        = .ok (.literal (.integer m) d2 (some .int) loc2, true) := rfl
    simp only [infer_expr, except_bind_ok, hL, hR]
    simp [set_type_recursively]
  · intro env st n d1 loc1 lt2 d2 c loc2 loc op ty e2 h2
    have hty2 := infer_literal_get_type _ _ _ _ _ _ _ h2
    have hL : infer_literal st (.integer n) d1 (some .int) loc1
        = .ok (.literal (.integer n) d1 (some .int) loc1, true) := rfl
    simp only [infer_expr, except_bind_ok, hL, h2, hty2]
    simp [set_type_recursively]
  · intro env st lt1 d1 c loc1 n d2 loc2 loc op ty e1 h1
    have hty1 := infer_literal_get_type _ _ _ _ _ _ _ h1
    have hR : infer_literal false (.integer n) d2 (some .int) loc2
        = .ok (.literal (.integer n) d2 (some .int) loc2, true) := rfl
    have hR2 : infer_literal true (.integer n) d2 (some .int) loc2
        = .ok (.literal (.integer n) d2 (some .int) loc2, true) := rfl
    simp only [infer_expr, except_bind_ok, h1, hR]
    rw [dif_pos trivial]
    simp only [infer_expr, except_bind_ok, hR2, hty1]
    simp [set_type_recursively]
  · intro env st lt1 d1 ty1 loc1 lt2 d2 ty2 loc2 loc op ty e1 e2 h1 h2
    refine ⟨?_, infer_literal_get_type _ _ _ _ _ _ _ h1,
      infer_literal_get_type _ _ _ _ _ _ _ h2⟩
    simp only [infer_expr, except_bind_ok, h1, h2]

/-- Witness for C9: the four cases at concrete inputs — `1 + 2` (both set
to `I64`), `1 + true` (left set to `Bool`), `x:i32 + 2` (right set to
`I32`), `true + false` (nothing changes). -/
theorem C9_witness :
    infer_expr ⟨[], [], []⟩ false
        (.binaryOperation (.literal (.integer 1) none (some .int) ⟨0, 0⟩)
          (some (.literal (.integer 2) none (some .int) ⟨0, 0⟩)) .plus none ⟨0, 0⟩)
      = .ok (.binaryOperation (.literal (.integer 1) none (some .i64) ⟨0, 0⟩)
          (some (.literal (.integer 2) none (some .i64) ⟨0, 0⟩)) .plus none ⟨0, 0⟩,
          true) ∧
    infer_expr ⟨[], [], []⟩ false
        (.binaryOperation (.literal (.integer 1) none (some .int) ⟨0, 0⟩)
          (some (.literal .true none (some .bool) ⟨0, 0⟩)) .plus none ⟨0, 0⟩)
      = .ok (.binaryOperation (.literal (.integer 1) none (some .bool) ⟨0, 0⟩)
          (some (.literal .true none (some .bool) ⟨0, 0⟩)) .plus none ⟨0, 0⟩,
          false) ∧
    infer_expr ⟨[], [], []⟩ false
        (.binaryOperation (.literal (.identifier "x") none (some .i32) ⟨0, 0⟩)
          (some (.literal (.integer 2) none (some .int) ⟨0, 0⟩)) .plus none ⟨0, 0⟩)
      = .ok (.binaryOperation (.literal (.identifier "x") none (some .i32) ⟨0, 0⟩)
          (some (.literal (.integer 2) none (some .i32) ⟨0, 0⟩)) .plus none ⟨0, 0⟩,
          true) ∧
    infer_expr ⟨[], [], []⟩ false
        (.binaryOperation (.literal .true none (some .bool) ⟨0, 0⟩)
          (some (.literal .false none (some .bool) ⟨0, 0⟩)) .plus none ⟨0, 0⟩)
      = .ok (.binaryOperation (.literal .true none (some .bool) ⟨0, 0⟩)
          (some (.literal .false none (some .bool) ⟨0, 0⟩)) .plus none ⟨0, 0⟩,
          false) :=
  ⟨C9_binary_integer_inference.1 ⟨[], [], []⟩ false 1 2 none none ⟨0, 0⟩ ⟨0, 0⟩ ⟨0, 0⟩
      .plus none,
   C9_binary_integer_inference.2.1 ⟨[], [], []⟩ false 1 none ⟨0, 0⟩ .true none .bool
      ⟨0, 0⟩ ⟨0, 0⟩ .plus none (.literal .true none (some .bool) ⟨0, 0⟩) rfl,
   C9_binary_integer_inference.2.2.1 ⟨[], [], []⟩ false (.identifier "x") none .i32
      ⟨0, 0⟩ 2 none ⟨0, 0⟩ ⟨0, 0⟩ .plus none
      (.literal (.identifier "x") none (some .i32) ⟨0, 0⟩) rfl,
   ((C9_binary_integer_inference.2.2.2 ⟨[], [], []⟩ false .true none (some .bool)
      ⟨0, 0⟩ .false none (some .bool) ⟨0, 0⟩ ⟨0, 0⟩ .plus none
      (.literal .true none (some .bool) ⟨0, 0⟩)
      (.literal .false none (some .bool) ⟨0, 0⟩) rfl rfl).1)⟩

/-! ### Renamer AST variant — `src/libbubble/src/type_system/rename.rs`

`rename.rs` is written against an AST variant of its own: tuple-style
function parameters `(TypeKind, String)` with a mandatory body (the older
`FunctionStatement`), a `LetStatement` whose `init_exp` is a mandatory
`Box<Expression>` (`LetStatement::new` is called with five arguments at
rename.rs line 43-55), and a `ForStatement` that already has `init_decl`.
These nodes are embedded here with an `R` prefix; expressions and struct
declarations are the shared ones above. -/

structure RLetStatement where
  name : String
  declaration_type : Option TypeKind
  init_exp : Expression
  location : TokenLocation
  ty : Option Ty

mutual
inductive RStatement where
  | mk (kind : RStatementKind) (location : TokenLocation)
inductive RStatementKind where
  | if_ (condition : Expression) (then_clause : RStatements)
      (else_clause : Option RStatements) (location : TokenLocation)
  | let_ (l : RLetStatement)
  | while_ (condition : Expression) (body : RStatements) (location : TokenLocation)
  | for_ (init_decl : RLetStatement) (continue_expression : Expression)
      (modify_expression : Expression) (body : RStatements) (location : TokenLocation)
  | return_ (exp : Option Expression) (location : TokenLocation)
  | break_ (location : TokenLocation)
  | continue_ (location : TokenLocation)
  | expression (expr : Expression) (naked : Bool)
inductive RStatements where
  | mk (statements : List RStatement) (location : TokenLocation)
end

structure RFunctionStatement where
  name : String
  parameters : List (TypeKind × String)
  return_type : TypeKind
  body : RStatements
  location : TokenLocation
  ty : Option Ty

inductive RGlobalStatement where
  | function (f : RFunctionStatement)
  | struct_ (s : StructStatement)
  | let_ (l : RLetStatement)

/-! ### Decimal formatting of the symbol counter

`Renamer::new_symbol` builds `format!("{}_{}", symbol, count)`; the `u32`
counter prints in decimal. The printer is embedded directly. -/

/-- Decimal digit characters. Only ever applied to values below ten. -/
def digit_char : Nat → Char
  | 0 => '0' | 1 => '1' | 2 => '2' | 3 => '3' | 4 => '4'
  | 5 => '5' | 6 => '6' | 7 => '7' | 8 => '8' | _ => '9'

/-- Big-endian decimal digits, with an explicit fuel parameter (the value
itself suffices, since `n / 10 < n` strictly decreases) so the definition
is structurally recursive and kernel-reducible. -/
def nat_to_digits_go : Nat → Nat → List Char
  | 0, _ => []
  | fuel + 1, n =>
      if n < 10 then [digit_char n]
      else nat_to_digits_go fuel (n / 10) ++ [digit_char (n % 10)]

/-- Big-endian decimal digits of a natural number. -/
def nat_to_digits (n : Nat) : List Char := nat_to_digits_go (n + 1) n

/-- Decimal rendering of the counter. -/
def nat_repr (n : Nat) : String := ⟨nat_to_digits n⟩

/-- The minted name `format!("{}_{}", symbol, count)` of
`Renamer::new_symbol` (rename.rs lines 25-28). -/
def mint_name (symbol : String) (count : Nat) : String :=
  symbol ++ "_" ++ nat_repr count

/-! ### The renamer — `src/libbubble/src/type_system/rename.rs`

State is `Renamer { symbol_count: u32, variables: ScopedMap<LetStatement> }`
threaded explicitly. The `unreachable!("Undeclared symbol in renamer!")`
arm of `visit_literal` (line 121), the `todo!()` for `Deref` in the default
`visit_expression` (visitor.rs line 287), and the `ScopedMap` panics are
all modelled as `none`. -/

structure Renamer where
  symbol_count : Nat
  vars : ScopedMap RLetStatement

/-- Translation of `#[derive(Default)] struct Renamer` (rename.rs 11-15). -/
def Renamer.default : Renamer := ⟨0, ScopedMap.default RLetStatement⟩

/-- Translation of `Renamer::new_symbol` (rename.rs lines 25-28). -/
def Renamer.new_symbol (r : Renamer) (symbol : String) : String × Renamer :=
  (mint_name symbol (r.symbol_count + 1), { r with symbol_count := r.symbol_count + 1 })

/-! Expression renaming never touches `symbol_count` and never inserts into
the scope map (the overridden `visit_literal` only reads it), so it takes
the map alone. Mirrors the default `MutableVisitor::visit_expression`
dispatch (visitor.rs lines 278-289) with the renamer's `visit_literal`
override (rename.rs lines 114-126); the override does not recurse into
`ArrayAccess` payloads, so those are left as-is. (The Rust field
`variables` is `vars` here; `variables` is a reserved command in Lean.) -/
mutual
def rename_expr (vars : ScopedMap RLetStatement) : Expression → Option Expression
  | .group g => (rename_expr vars g).map .group
  | .binaryOperation left right op ty loc => do
      let left' ← rename_expr vars left
      match right with
      | none => return .binaryOperation left' none op ty loc
      | some e => do
          let e' ← rename_expr vars e
          return .binaryOperation left' (some e') op ty loc
  | .literal lt def_ ty loc =>
      match lt with
      | .identifier id =>
          match vars.find_symbol id with
          | some decl =>
              some (.literal (.identifier decl.name)
                (some (.localVariable decl.name)) ty loc)
          | none => none
      | _ => some (.literal lt def_ ty loc)
  | .call callee args loc ty def_ => do
      let args' ← rename_expr_list vars args
      return .call callee args' loc ty def_
  | .assignment left right ty loc => do
      let left' ← rename_expr vars left
      let right' ← rename_expr vars right
      return .assignment left' right' ty loc
  | .arrayInitializer values ty loc => do
      let values' ← rename_expr_list vars values
      return .arrayInitializer values' ty loc
  | .addrOf e loc => (rename_expr vars e).map (.addrOf · loc)
  | .deref _ _ => none
def rename_expr_list (vars : ScopedMap RLetStatement) :
    List Expression → Option (List Expression)
  | [] => some []
  | e :: rest => do
      let e' ← rename_expr vars e
      let rest' ← rename_expr_list vars rest
      return e' :: rest'
end

/-- Translation of `Renamer::visit_let` (rename.rs lines 69-76): remember
the previous name, mint the new one, rename the initializer, then insert
the renamed clone into the map under the previous name. -/
def rename_let (r : Renamer) (stmt : RLetStatement) : Option (RLetStatement × Renamer) :=
  let prev_name := stmt.name
  let p := r.new_symbol stmt.name
  let stmt1 : RLetStatement := { stmt with name := p.1 }
  do
    let e ← rename_expr p.2.vars stmt1.init_exp
    let stmt2 := { stmt1 with init_exp := e }
    let vars ← p.2.vars.insert_symbol prev_name stmt2
    return (stmt2, { p.2 with vars := vars })

/-! Statement renaming: the renamer's overrides `visit_if`, `visit_while`,
`visit_for` (rename.rs lines 78-112) and the default `visit_statement_kind`
/ `visit_statements` / `visit_return` (visitor.rs lines 180-199, 226-231,
263-269). `visit_for` renames the `init_decl`, then visits
`modify_expression` before `continue_expression`. -/
mutual
def rename_stmt_kind (r : Renamer) : RStatementKind → Option (RStatementKind × Renamer)
  | .if_ condition (.mk then_stmts tloc) else_clause loc => do
      let condition' ← rename_expr r.vars condition
      let r1 := { r with vars := r.vars.new_scope }
      let (then', r2) ← rename_stmt_list r1 then_stmts
      let vars ← r2.vars.delete_scope
      let r3 := { r2 with vars := vars }
      match else_clause with
      | none => return (.if_ condition' (.mk then' tloc) none loc, r3)
      | some (.mk else_stmts eloc) => do
          let r4 := { r3 with vars := r3.vars.new_scope }
          let (else', r5) ← rename_stmt_list r4 else_stmts
          let vars2 ← r5.vars.delete_scope
          return (.if_ condition' (.mk then' tloc) (some (.mk else' eloc)) loc,
            { r5 with vars := vars2 })
  | .let_ l => (rename_let r l).map fun p => (.let_ p.1, p.2)
  | .while_ condition (.mk body_stmts bloc) loc => do
      let condition' ← rename_expr r.vars condition
      let r1 := { r with vars := r.vars.new_scope }
      let (body', r2) ← rename_stmt_list r1 body_stmts
      let vars ← r2.vars.delete_scope
      return (.while_ condition' (.mk body' bloc) loc, { r2 with vars := vars })
  | .for_ init_decl continue_expression modify_expression (.mk body_stmts bloc) loc => do
      let r1 := { r with vars := r.vars.new_scope }
      let (init', r2) ← rename_let r1 init_decl
      let modify' ← rename_expr r2.vars modify_expression
      let continue' ← rename_expr r2.vars continue_expression
      let (body', r3) ← rename_stmt_list r2 body_stmts
      let vars ← r3.vars.delete_scope
      return (.for_ init' continue' modify' (.mk body' bloc) loc,
        { r3 with vars := vars })
  | .return_ exp loc =>
      match exp with
      | none => some (.return_ none loc, r)
      | some e => (rename_expr r.vars e).map fun e' => (.return_ (some e') loc, r)
  | .break_ loc => some (.break_ loc, r)
  | .continue_ loc => some (.continue_ loc, r)
  | .expression expr naked =>
      (rename_expr r.vars expr).map fun e' => (.expression e' naked, r)
def rename_stmt_list (r : Renamer) : List RStatement → Option (List RStatement × Renamer)
  | [] => some ([], r)
  | .mk kind loc :: rest => do
      let (kind', r1) ← rename_stmt_kind r kind
      let (rest', r2) ← rename_stmt_list r1 rest
      return (.mk kind' loc :: rest', r2)
end

/-- The parameter loop of `Renamer::visit_function` (rename.rs lines
39-56): mint a new name for each parameter in order and insert a synthetic
`LetStatement` — built with the function's location, the parameter's type
and a `True` literal initializer — into the scope map. Note the insertion
key is the already-renamed `parameter_name`. -/
def rename_params (r : Renamer) (location : TokenLocation) :
    List (TypeKind × String) → Option (List (TypeKind × String) × Renamer)
  | [] => some ([], r)
  | (kind, parameter_name) :: rest => do
      let p := r.new_symbol parameter_name
      let decl : RLetStatement :=
        { name := p.1, declaration_type := some kind,
          init_exp := .literal .true none none location,
          location := location, ty := none }
      let vars ← p.2.vars.insert_symbol p.1 decl
      let (rest', r2) ← rename_params { p.2 with vars := vars } location rest
      return ((kind, p.1) :: rest', r2)

/-- Translation of `Renamer::visit_function` (rename.rs lines 34-62): new
scope, rename parameters, visit the body, delete the scope. `stmt.name` is
never written. -/
def rename_function (r : Renamer) (f : RFunctionStatement) :
    Option (RFunctionStatement × Renamer) :=
  let location := f.location
  let r0 := { r with vars := r.vars.new_scope }
  match f.body with
  | .mk body_stmts bloc => do
      let (params', r1) ← rename_params r0 location f.parameters
      let (body', r2) ← rename_stmt_list r1 body_stmts
      let vars ← r2.vars.delete_scope
      return ({ f with parameters := params', body := .mk body' bloc },
        { r2 with vars := vars })

/-- Translation of `Renamer::visit_struct` (rename.rs lines 64-67). -/
def rename_struct (r : Renamer) (s : StructStatement) : StructStatement × Renamer :=
  let p := r.new_symbol s.name
  ({ s with name := p.1 }, p.2)

/-- Dispatch of the default `visit_global_statement` (visitor.rs lines
172-178). -/
def rename_global (r : Renamer) : RGlobalStatement → Option (RGlobalStatement × Renamer)
  | .function f => (rename_function r f).map fun p => (.function p.1, p.2)
  | .struct_ s => some (.struct_ (rename_struct r s).1, (rename_struct r s).2)
  | .let_ l => (rename_let r l).map fun p => (.let_ p.1, p.2)

/-- The loop of `Renamer::rename_statements` (rename.rs lines 18-24) over
an explicit state. -/
def rename_global_list (r : Renamer) :
    List RGlobalStatement → Option (List RGlobalStatement × Renamer)
  | [] => some ([], r)
  | g :: rest => do
      let (g', r1) ← rename_global r g
      let (rest', r2) ← rename_global_list r1 rest
      return (g' :: rest', r2)

/-- `Renamer::rename_statements` run from `Renamer::default()`, as
`type_check` does (type_system/mod.rs). -/
def rename_statements (stmts : List RGlobalStatement) :
    Option (List RGlobalStatement × Renamer) :=
  rename_global_list Renamer.default stmts

/-! ### Declared names of a renamer-variant program

The declaring constructs are `let` statements (including a `for`'s
`init_decl`), function parameters, struct names, global `let`s — and
function names, which C4 also counts as declared identifiers. Listed in
the order the renamer visits them. -/

mutual
def rstmt_kind_decls : RStatementKind → List String
  | .if_ _ (.mk then_stmts _) else_clause _ =>
      rstmt_list_decls then_stmts ++
        (match else_clause with
         | some (.mk else_stmts _) => rstmt_list_decls else_stmts
         | none => [])
  | .let_ l => [l.name]
  | .while_ _ (.mk body_stmts _) _ => rstmt_list_decls body_stmts
  | .for_ init_decl _ _ (.mk body_stmts _) _ =>
      init_decl.name :: rstmt_list_decls body_stmts
  | .return_ _ _ => []
  | .break_ _ => []
  | .continue_ _ => []
  | .expression _ _ => []
def rstmt_list_decls : List RStatement → List String
  | [] => []
  | .mk kind _ :: rest => rstmt_kind_decls kind ++ rstmt_list_decls rest
end

/-- All declared names of a global statement except function names
(parameters and body lets for a function; the declared name itself for a
struct or global let). -/
def rglobal_decls : RGlobalStatement → List String
  | .function f =>
      f.parameters.map (fun p => p.2) ++
        (match f.body with | .mk body_stmts _ => rstmt_list_decls body_stmts)
  | .struct_ s => [s.name]
  | .let_ l => [l.name]

/-- All non-function declared names of a program, in visit order. -/
def rprogram_decls : List RGlobalStatement → List String
  | [] => []
  | g :: rest => rglobal_decls g ++ rprogram_decls rest

/-- The function name declared by a global statement, if any. -/
def rglobal_fn_names : RGlobalStatement → List String
  | .function f => [f.name]
  | .struct_ _ => []
  | .let_ _ => []

/-- The function names declared by a program, in order. -/
def rprogram_fn_names : List RGlobalStatement → List String
  | [] => []
  | g :: rest => rglobal_fn_names g ++ rprogram_fn_names rest

/-! ### Injectivity of `mint_name` in its counter -/

theorem digit_char_ne_underscore (d : Nat) : digit_char d ≠ '_' := by
  unfold digit_char
  split <;> decide

theorem digit_char_toNat (d : Nat) (h : d < 10) : (digit_char d).toNat = 48 + d := by
  interval_cases d <;> decide

/-- Value of a big-endian decimal digit string. -/
def digits_to_nat (l : List Char) : Nat :=
  l.foldl (fun a c => 10 * a + (c.toNat - 48)) 0

theorem nat_to_digits_go_val :
    ∀ fuel n, n < fuel → digits_to_nat (nat_to_digits_go fuel n) = n := by
  intro fuel
  induction fuel with
  | zero => intro n h; omega
  | succ fuel ih =>
      intro n h
      unfold nat_to_digits_go
      by_cases h10 : n < 10
      · simp [h10, digits_to_nat, digit_char_toNat n h10]
      · have hdiv : n / 10 < fuel := by
          have h1 : n / 10 < n := Nat.div_lt_self (by omega) (by omega)
          omega
        have hv := ih (n / 10) hdiv
        have hm := digit_char_toNat (n % 10) (Nat.mod_lt n (by omega))
        simp only [h10, if_false, digits_to_nat, List.foldl_append, List.foldl_cons,
          List.foldl_nil] at hv ⊢
        rw [hv, hm]
        omega

theorem nat_to_digits_val (n : Nat) : digits_to_nat (nat_to_digits n) = n :=
  nat_to_digits_go_val (n + 1) n (by omega)

theorem nat_repr_inj {a b : Nat} (h : nat_repr a = nat_repr b) : a = b := by
  have hd : nat_to_digits a = nat_to_digits b := by
    have h2 := congrArg String.data h
    simpa [nat_repr] using h2
  have h3 := congrArg digits_to_nat hd
  simpa [nat_to_digits_val] using h3

theorem nat_to_digits_go_no_underscore :
    ∀ fuel n c, c ∈ nat_to_digits_go fuel n → c ≠ '_' := by
  intro fuel
  induction fuel with
  | zero => intro n c hc; simp [nat_to_digits_go] at hc
  | succ fuel ih =>
      intro n c hc
      unfold nat_to_digits_go at hc
      by_cases h10 : n < 10
      · simp [h10] at hc
        subst hc
        exact digit_char_ne_underscore n
      · simp only [h10, if_false, List.mem_append, List.mem_singleton] at hc
        rcases hc with hc | hc
        · exact ih _ _ hc
        · subst hc
          exact digit_char_ne_underscore _

theorem string_data_append (a b : String) : (a ++ b).data = a.data ++ b.data := by
  cases a
  cases b
  rfl

theorem takeWhile_until_underscore :
    ∀ A : List Char, (∀ a ∈ A, a ≠ '_') → ∀ B : List Char,
      List.takeWhile (fun c => c != '_') (A ++ '_' :: B) = A := by
  intro A
  induction A with
  | nil => intro _ B; simp
  | cons a A ih =>
      intro h B
      have ha : (a != '_') = true := by
        simpa using h a (by simp)
      simp only [List.cons_append, List.takeWhile_cons, ha, if_true]
      rw [ih (fun x hx => h x (by simp [hx])) B]

/-- `mint_name` is injective in the counter: the digits after the last
underscore recover it. -/
theorem mint_name_counter_inj {s1 s2 : String} {c1 c2 : Nat}
    (h : mint_name s1 c1 = mint_name s2 c2) : c1 = c2 := by
  have hd : s1.data ++ '_' :: nat_to_digits c1 = s2.data ++ '_' :: nat_to_digits c2 := by
    have h2 := congrArg String.data h
    simpa [mint_name, nat_repr, string_data_append] using h2
  have hA1 : ∀ a ∈ (nat_to_digits c1).reverse, a ≠ '_' := by
    intro a ha
    exact nat_to_digits_go_no_underscore _ _ a (by simpa using ha)
  have hA2 : ∀ a ∈ (nat_to_digits c2).reverse, a ≠ '_' := by
    intro a ha
    exact nat_to_digits_go_no_underscore _ _ a (by simpa using ha)
  have e1 : List.takeWhile (fun c => c != '_')
      ((s1.data ++ '_' :: nat_to_digits c1).reverse) = (nat_to_digits c1).reverse := by
    have hr : (s1.data ++ '_' :: nat_to_digits c1).reverse =
        (nat_to_digits c1).reverse ++ '_' :: s1.data.reverse := by
      simp
    rw [hr, takeWhile_until_underscore _ hA1]
  have e2 : List.takeWhile (fun c => c != '_')
      ((s2.data ++ '_' :: nat_to_digits c2).reverse) = (nat_to_digits c2).reverse := by
    have hr : (s2.data ++ '_' :: nat_to_digits c2).reverse =
        (nat_to_digits c2).reverse ++ '_' :: s2.data.reverse := by
      simp
    rw [hr, takeWhile_until_underscore _ hA2]
  have hrev : (nat_to_digits c1).reverse = (nat_to_digits c2).reverse := by
    rw [← e1, ← e2, hd]
  have hdig : nat_to_digits c1 = nat_to_digits c2 := by
    simpa using congrArg List.reverse hrev
  have h3 := congrArg digits_to_nat hdig
  simpa [nat_to_digits_val] using h3

/-- Every minted name contains an underscore (no plain identifier does, in
particular no unrenamed original name of the concrete programs below). -/
theorem mint_name_has_underscore (s : String) (c : Nat) : '_' ∈ (mint_name s c).data := by
  simp [mint_name, string_data_append]

/-! ### The minting invariant -/

/-- `news` is `origs` with every name minted, using strictly increasing
fresh counters all lying in the interval `(n0, n1]`. -/
def MintedBetween (n0 n1 : Nat) (origs news : List String) : Prop :=
  ∃ cs : List Nat, news = List.zipWith mint_name origs cs ∧
    cs.length = origs.length ∧
    List.Pairwise (· < ·) cs ∧
    ∀ c ∈ cs, n0 < c ∧ c ≤ n1

theorem MintedBetween.nil (n0 n1 : Nat) : MintedBetween n0 n1 [] [] :=
  ⟨[], by simp⟩

theorem MintedBetween.single (n0 : Nat) (o : String) :
    MintedBetween n0 (n0 + 1) [o] [mint_name o (n0 + 1)] :=
  ⟨[n0 + 1], by simp, by simp, by simp, by simp⟩

theorem MintedBetween.mono {n0 n1 n0' n1' : Nat} {os ns : List String}
    (h0 : n0' ≤ n0) (h1 : n1 ≤ n1') (h : MintedBetween n0 n1 os ns) :
    MintedBetween n0' n1' os ns := by
  obtain ⟨cs, he, hl, hp, hb⟩ := h
  exact ⟨cs, he, hl, hp, fun c hc => by have := hb c hc; omega⟩

theorem MintedBetween.append {n0 n1 n2 : Nat} {os1 ns1 os2 ns2 : List String}
    (h01 : n0 ≤ n1) (h12 : n1 ≤ n2)
    (hA : MintedBetween n0 n1 os1 ns1) (hB : MintedBetween n1 n2 os2 ns2) :
    MintedBetween n0 n2 (os1 ++ os2) (ns1 ++ ns2) := by
  obtain ⟨cs1, e1, l1, p1, b1⟩ := hA
  obtain ⟨cs2, e2, l2, p2, b2⟩ := hB
  refine ⟨cs1 ++ cs2, ?_, ?_, ?_, ?_⟩
  · rw [e1, e2, List.zipWith_append _ _ _ _ _ l1.symm]
  · simp [l1, l2]
  · rw [List.pairwise_append]
    refine ⟨p1, p2, fun a ha b hb => ?_⟩
    have h1 := (b1 a ha).2
    have h2 := (b2 b hb).1
    omega
  · intro c hc
    rcases List.mem_append.mp hc with h | h
    · have := b1 c h; omega
    · have := b2 c h; omega

theorem mem_zip_mint :
    ∀ (os : List String) (cs : List Nat) (x : String),
      x ∈ List.zipWith mint_name os cs → ∃ o c, c ∈ cs ∧ x = mint_name o c := by
  intro os
  induction os with
  | nil => intro cs x hx; simp at hx
  | cons o os ih =>
      intro cs x hx
      cases cs with
      | nil => simp at hx
      | cons c cs =>
          rw [List.zipWith_cons_cons, List.mem_cons] at hx
          rcases hx with hx | hx
          · exact ⟨o, c, by simp, hx⟩
          · obtain ⟨o', c', hc', hx'⟩ := ih cs x hx
            exact ⟨o', c', by simp [hc'], hx'⟩

theorem zip_mint_nodup :
    ∀ (os : List String) (cs : List Nat),
      List.Pairwise (· < ·) cs → (List.zipWith mint_name os cs).Nodup := by
  intro os
  induction os with
  | nil => intro cs _; simp
  | cons o os ih =>
      intro cs hp
      cases cs with
      | nil => simp
      | cons c cs =>
          rw [List.zipWith_cons_cons, List.nodup_cons]
          constructor
          · intro hmem
            obtain ⟨o', c', hc', he⟩ := mem_zip_mint os cs _ hmem
            have hcc : c = c' := mint_name_counter_inj he
            have hlt : c < c' := (List.pairwise_cons.mp hp).1 c' hc'
            omega
          · exact ih cs (List.pairwise_cons.mp hp).2

theorem MintedBetween.nodup {n0 n1 : Nat} {os ns : List String}
    (h : MintedBetween n0 n1 os ns) : ns.Nodup := by
  obtain ⟨cs, he, _, hp, _⟩ := h
  rw [he]
  exact zip_mint_nodup os cs hp

/-! ### What the renamer does to declared names -/

theorem rename_let_spec (r : Renamer) (l l' : RLetStatement) (r' : Renamer)
    (h : rename_let r l = some (l', r')) :
    r'.symbol_count = r.symbol_count + 1 ∧
    l'.name = mint_name l.name (r.symbol_count + 1) := by
  simp only [rename_let, Renamer.new_symbol, Option.pure_def, Option.bind_eq_bind,
    Option.bind_eq_some, Option.some.injEq, Prod.mk.injEq] at h
  obtain ⟨e, he, vs, hv, h1, h2⟩ := h
  subst h1
  subst h2
  exact ⟨rfl, rfl⟩

/-- The minting form of `rename_let_spec`. -/
theorem rename_let_minted (r : Renamer) (l l' : RLetStatement) (r' : Renamer)
    (h : rename_let r l = some (l', r')) :
    r.symbol_count ≤ r'.symbol_count ∧
    MintedBetween r.symbol_count r'.symbol_count [l.name] [l'.name] := by
  obtain ⟨hc, hn⟩ := rename_let_spec r l l' r' h
  rw [hc, hn]
  exact ⟨by omega, MintedBetween.single r.symbol_count l.name⟩

theorem rename_params_spec :
    ∀ (ps : List (TypeKind × String)) (r : Renamer) (location : TokenLocation)
      (ps' : List (TypeKind × String)) (r' : Renamer),
      rename_params r location ps = some (ps', r') →
      r.symbol_count ≤ r'.symbol_count ∧
      MintedBetween r.symbol_count r'.symbol_count
        (ps.map (fun p => p.2)) (ps'.map (fun p => p.2))
  | [], r, location, ps', r', h => by
      simp only [rename_params, Option.some.injEq, Prod.mk.injEq] at h
      obtain ⟨h1, h2⟩ := h
      subst h1
      subst h2
      exact ⟨Nat.le_refl _, MintedBetween.nil _ _⟩
  | (kind, parameter_name) :: rest, r, location, ps', r', h => by
      simp only [rename_params, Renamer.new_symbol, Option.pure_def, Option.bind_eq_bind,
        Option.bind_eq_some, Option.some.injEq, Prod.mk.injEq] at h
      obtain ⟨vs, hv, ⟨rest', r2⟩, hrest, h1, h2⟩ := h
      subst h1
      subst h2
      obtain ⟨hle, hmb⟩ := rename_params_spec rest _ location rest' r2 hrest
      have hle' : r.symbol_count + 1 ≤ r2.symbol_count := hle
      constructor
      · exact Nat.le_trans (Nat.le_succ _) hle'
      · have hsingle := MintedBetween.single r.symbol_count parameter_name
        have happ := MintedBetween.append (by omega) hle' hsingle hmb
        simpa using happ

mutual
theorem rename_kind_spec :
    ∀ (k : RStatementKind) (r : Renamer) (k' : RStatementKind) (r' : Renamer),
      rename_stmt_kind r k = some (k', r') →
      r.symbol_count ≤ r'.symbol_count ∧
      MintedBetween r.symbol_count r'.symbol_count
        (rstmt_kind_decls k) (rstmt_kind_decls k')
  | .if_ condition (.mk then_stmts tl) (some (.mk else_stmts el)) loc,
      r, k', r', h => by
      simp only [rename_stmt_kind, Option.pure_def, Option.bind_eq_bind,
        Option.bind_eq_some, Option.some.injEq, Prod.mk.injEq] at h
      obtain ⟨c', hc', ⟨then', r2⟩, hthen, vs, hdel, ⟨else', r5⟩, helse, vs2, hdel2,
        h1, h2⟩ := h
      subst h1
      subst h2
      have s1 := rename_list_spec then_stmts _ then' r2 hthen
      have s2 := rename_list_spec else_stmts _ else' r5 helse
      have a1 : r.symbol_count ≤ r2.symbol_count := s1.1
      have a2 : r2.symbol_count ≤ r5.symbol_count := s2.1
      have m1 : MintedBetween r.symbol_count r2.symbol_count
          (rstmt_list_decls then_stmts) (rstmt_list_decls then') := s1.2
      have m2 : MintedBetween r2.symbol_count r5.symbol_count
          (rstmt_list_decls else_stmts) (rstmt_list_decls else') := s2.2
      refine ⟨Nat.le_trans a1 a2, ?_⟩
      have := MintedBetween.append a1 a2 m1 m2
      simpa [rstmt_kind_decls] using this
  | .if_ condition (.mk then_stmts tl) none loc, r, k', r', h => by
      simp only [rename_stmt_kind, Option.pure_def, Option.bind_eq_bind,
        Option.bind_eq_some, Option.some.injEq, Prod.mk.injEq] at h
      obtain ⟨c', hc', ⟨then', r2⟩, hthen, vs, hdel, h1, h2⟩ := h
      subst h1
      subst h2
      have s1 := rename_list_spec then_stmts _ then' r2 hthen
      have a1 : r.symbol_count ≤ r2.symbol_count := s1.1
      have m1 : MintedBetween r.symbol_count r2.symbol_count
          (rstmt_list_decls then_stmts) (rstmt_list_decls then') := s1.2
      exact ⟨a1, by simpa [rstmt_kind_decls] using m1⟩
  | .let_ l, r, k', r', h => by
      simp only [rename_stmt_kind, Option.map_eq_some', Prod.mk.injEq] at h
      obtain ⟨⟨l', r1⟩, hl, h1, h2⟩ := h
      subst h1
      subst h2
      obtain ⟨hle, hmb⟩ := rename_let_minted r l l' r1 hl
      exact ⟨hle, by simpa [rstmt_kind_decls] using hmb⟩
  | .while_ condition (.mk body_stmts bl) loc, r, k', r', h => by
      simp only [rename_stmt_kind, Option.pure_def, Option.bind_eq_bind,
        Option.bind_eq_some, Option.some.injEq, Prod.mk.injEq] at h
      obtain ⟨c', hc', ⟨body', r2⟩, hbody, vs, hdel, h1, h2⟩ := h
      subst h1
      subst h2
      have s1 := rename_list_spec body_stmts _ body' r2 hbody
      have a1 : r.symbol_count ≤ r2.symbol_count := s1.1
      have m1 : MintedBetween r.symbol_count r2.symbol_count
          (rstmt_list_decls body_stmts) (rstmt_list_decls body') := s1.2
      exact ⟨a1, by simpa [rstmt_kind_decls] using m1⟩
  | .for_ init_decl continue_e modify_e (.mk body_stmts bl) loc, r, k', r', h => by
      simp only [rename_stmt_kind, Option.pure_def, Option.bind_eq_bind,
        Option.bind_eq_some, Option.some.injEq, Prod.mk.injEq] at h
      obtain ⟨⟨init', r2⟩, hinit, m', hm, c', hc, ⟨body', r3⟩, hbody, vs, hdel,
        h1, h2⟩ := h
      subst h1
      subst h2
      have le1 : r.symbol_count ≤ r2.symbol_count :=
        (rename_let_minted _ init_decl init' r2 hinit).1
      have mb1 : MintedBetween r.symbol_count r2.symbol_count
          [init_decl.name] [init'.name] :=
        (rename_let_minted _ init_decl init' r2 hinit).2
      have s2 := rename_list_spec body_stmts r2 body' r3 hbody
      refine ⟨Nat.le_trans le1 s2.1, ?_⟩
      have := MintedBetween.append le1 s2.1 mb1 s2.2
      simpa [rstmt_kind_decls] using this
  | .return_ (some e) loc, r, k', r', h => by
      simp only [rename_stmt_kind, Option.map_eq_some', Prod.mk.injEq] at h
      obtain ⟨e', he, h1, h2⟩ := h
      subst h1
      subst h2
      exact ⟨Nat.le_refl _,
        by simpa [rstmt_kind_decls] using MintedBetween.nil r.symbol_count r.symbol_count⟩
  | .return_ none loc, r, k', r', h => by
      simp only [rename_stmt_kind, Option.some.injEq, Prod.mk.injEq] at h
      obtain ⟨h1, h2⟩ := h
      subst h1
      subst h2
      exact ⟨Nat.le_refl _,
        by simpa [rstmt_kind_decls] using MintedBetween.nil r.symbol_count r.symbol_count⟩
  | .break_ loc, r, k', r', h => by
      simp only [rename_stmt_kind, Option.some.injEq, Prod.mk.injEq] at h
      obtain ⟨h1, h2⟩ := h
      subst h1
      subst h2
      exact ⟨Nat.le_refl _,
        by simpa [rstmt_kind_decls] using MintedBetween.nil r.symbol_count r.symbol_count⟩
  | .continue_ loc, r, k', r', h => by
      simp only [rename_stmt_kind, Option.some.injEq, Prod.mk.injEq] at h
      obtain ⟨h1, h2⟩ := h
      subst h1
      subst h2
      exact ⟨Nat.le_refl _,
        by simpa [rstmt_kind_decls] using MintedBetween.nil r.symbol_count r.symbol_count⟩
  | .expression e naked, r, k', r', h => by
      simp only [rename_stmt_kind, Option.map_eq_some', Prod.mk.injEq] at h
      obtain ⟨e', he, h1, h2⟩ := h
      subst h1
      subst h2
      exact ⟨Nat.le_refl _,
        by simpa [rstmt_kind_decls] using MintedBetween.nil r.symbol_count r.symbol_count⟩

theorem rename_list_spec :
    ∀ (l : List RStatement) (r : Renamer) (l' : List RStatement) (r' : Renamer),
      rename_stmt_list r l = some (l', r') →
      r.symbol_count ≤ r'.symbol_count ∧
      MintedBetween r.symbol_count r'.symbol_count
        (rstmt_list_decls l) (rstmt_list_decls l')
  | [], r, l', r', h => by
      simp only [rename_stmt_list, Option.some.injEq, Prod.mk.injEq] at h
      obtain ⟨h1, h2⟩ := h
      subst h1
      subst h2
      exact ⟨Nat.le_refl _,
        by simpa [rstmt_list_decls] using MintedBetween.nil r.symbol_count r.symbol_count⟩
  | .mk kind sl :: rest, r, l', r', h => by
      simp only [rename_stmt_list, Option.pure_def, Option.bind_eq_bind,
        Option.bind_eq_some, Option.some.injEq, Prod.mk.injEq] at h
      obtain ⟨⟨kind', r1⟩, hk, ⟨rest', r2⟩, hrest, h1, h2⟩ := h
      subst h1
      subst h2
      obtain ⟨le1, mb1⟩ := rename_kind_spec kind r kind' r1 hk
      obtain ⟨le2, mb2⟩ := rename_list_spec rest r1 rest' r2 hrest
      refine ⟨Nat.le_trans le1 le2, ?_⟩
      have := MintedBetween.append le1 le2 mb1 mb2
      simpa [rstmt_list_decls] using this
end

theorem rename_function_spec (r : Renamer) (f f' : RFunctionStatement) (r' : Renamer)
    (h : rename_function r f = some (f', r')) :
    r.symbol_count ≤ r'.symbol_count ∧ f'.name = f.name ∧
    MintedBetween r.symbol_count r'.symbol_count
      (rglobal_decls (.function f)) (rglobal_decls (.function f')) := by
  rcases hb : f.body with ⟨body_stmts, bloc⟩
  simp only [rename_function, hb, Option.pure_def, Option.bind_eq_bind,
    Option.bind_eq_some, Option.some.injEq, Prod.mk.injEq] at h
  obtain ⟨⟨params', r1⟩, hp, ⟨body', r2⟩, hbody, vs, hdel, h1, h2⟩ := h
  subst h1
  subst h2
  obtain ⟨le1, mb1⟩ := rename_params_spec f.parameters _ f.location params' r1 hp
  have le1' : r.symbol_count ≤ r1.symbol_count := le1
  have mb1' : MintedBetween r.symbol_count r1.symbol_count
      (f.parameters.map (fun p => p.2)) (params'.map (fun p => p.2)) := mb1
  obtain ⟨le2, mb2⟩ := rename_list_spec body_stmts r1 body' r2 hbody
  refine ⟨Nat.le_trans le1' le2, rfl, ?_⟩
  have := MintedBetween.append le1' le2 mb1' mb2
  simpa [rglobal_decls, hb] using this

theorem rename_global_spec (r : Renamer) (g g' : RGlobalStatement) (r' : Renamer)
    (h : rename_global r g = some (g', r')) :
    r.symbol_count ≤ r'.symbol_count ∧
    rglobal_fn_names g' = rglobal_fn_names g ∧
    MintedBetween r.symbol_count r'.symbol_count
      (rglobal_decls g) (rglobal_decls g') := by
  cases g with
  | function f =>
      simp only [rename_global, Option.map_eq_some', Prod.mk.injEq] at h
      obtain ⟨⟨f1, r1⟩, hf, h1, h2⟩ := h
      subst h1
      subst h2
      obtain ⟨hle, hname, hmb⟩ := rename_function_spec r f f1 r1 hf
      exact ⟨hle, by simp [rglobal_fn_names, hname], hmb⟩
  | struct_ s =>
      simp only [rename_global, Option.some.injEq, Prod.mk.injEq] at h
      obtain ⟨h1, h2⟩ := h
      subst h1
      subst h2
      refine ⟨Nat.le_succ _, by simp [rglobal_fn_names], ?_⟩
      have := MintedBetween.single r.symbol_count s.name
      simpa [rglobal_decls, rename_struct, Renamer.new_symbol] using this
  | let_ l =>
      simp only [rename_global, Option.map_eq_some', Prod.mk.injEq] at h
      obtain ⟨⟨l1, r1⟩, hl, h1, h2⟩ := h
      subst h1
      subst h2
      obtain ⟨hle, hmb⟩ := rename_let_minted r l l1 r1 hl
      exact ⟨hle, by simp [rglobal_fn_names], by simpa [rglobal_decls] using hmb⟩

theorem rename_global_list_spec :
    ∀ (gs : List RGlobalStatement) (r : Renamer) (gs' : List RGlobalStatement)
      (r' : Renamer),
      rename_global_list r gs = some (gs', r') →
      r.symbol_count ≤ r'.symbol_count ∧
      rprogram_fn_names gs' = rprogram_fn_names gs ∧
      MintedBetween r.symbol_count r'.symbol_count
        (rprogram_decls gs) (rprogram_decls gs')
  | [], r, gs', r', h => by
      simp only [rename_global_list, Option.some.injEq, Prod.mk.injEq] at h
      obtain ⟨h1, h2⟩ := h
      subst h1
      subst h2
      exact ⟨Nat.le_refl _, rfl,
        by simpa [rprogram_decls] using MintedBetween.nil r.symbol_count r.symbol_count⟩
  | g :: rest, r, gs', r', h => by
      simp only [rename_global_list, Option.pure_def, Option.bind_eq_bind,
        Option.bind_eq_some, Option.some.injEq, Prod.mk.injEq] at h
      obtain ⟨⟨g1, r1⟩, hg, ⟨rest', r2⟩, hrest, h1, h2⟩ := h
      subst h1
      subst h2
      obtain ⟨le1, hfn1, mb1⟩ := rename_global_spec r g g1 r1 hg
      obtain ⟨le2, hfn2, mb2⟩ := rename_global_list_spec rest r1 rest' r2 hrest
      refine ⟨Nat.le_trans le1 le2, by simp [rprogram_fn_names, hfn1, hfn2], ?_⟩
      have := MintedBetween.append le1 le2 mb1 mb2
      simpa [rprogram_decls] using this

/-- C4 (amended): running `Renamer::rename_statements` from
`Renamer::default` leaves every function name unchanged (`visit_function`
never writes `stmt.name`), while every other declared identifier — struct
names, global and local `let`s, function parameters and `for` induction
variables — is rewritten to `<original>_<counter>` with strictly
increasing fresh counters drawn from `(0, final symbol_count]`; in
particular the non-function declared names are pairwise distinct, but the
claim's requirement that function names too become `<original>_<counter>`
fails. -/
theorem C4_renamer_decls (gs gs' : List RGlobalStatement) (r' : Renamer)
    (h : rename_statements gs = some (gs', r')) :
    rprogram_fn_names gs' = rprogram_fn_names gs ∧
    (rprogram_decls gs').Nodup ∧
    MintedBetween 0 r'.symbol_count (rprogram_decls gs) (rprogram_decls gs') := by
  obtain ⟨hle, hfn, hmb⟩ := rename_global_list_spec gs Renamer.default gs' r' h
  exact ⟨hfn, hmb.nodup, hmb⟩

/-- Location used by the concrete C4 programs. -/
def c4_loc : TokenLocation := ⟨0, 0⟩

/-- A function named `f` with no parameters and an empty body. -/
def c4_plain_fn : RFunctionStatement :=
  ⟨"f", [], .void, .mk [] c4_loc, c4_loc, none⟩

/-- C4 counterexample: the renamer returns the program `function f() {}`
completely unchanged — `Renamer::visit_function` never writes `stmt.name`
— yet every name of the claimed form `<original>_<counter>` contains an
underscore, and `"f"` contains none, so the function's declared name has
not been rewritten to that form. -/
theorem C4_counterexample :
    rename_statements [.function c4_plain_fn] =
      some ([.function c4_plain_fn], ⟨0, ScopedMap.default RLetStatement⟩) ∧
    (∀ s c, '_' ∈ (mint_name s c).data) ∧
    '_' ∉ "f".data :=
  ⟨rfl, mint_name_has_underscore, by decide⟩

/-- Concrete program for the C4 witness: a struct `S` and a function `f`
with one `i64` parameter `x` and body `let y = 1;`. -/
def c4_prog : List RGlobalStatement :=
  [.struct_ ⟨"S", [], c4_loc, none⟩,
   .function ⟨"f", [(.i64, "x")], .void,
     .mk [.mk (.let_ ⟨"y", none, .literal (.integer 1) none none c4_loc,
       c4_loc, none⟩) c4_loc] c4_loc,
     c4_loc, none⟩]

/-- What the renamer produces on `c4_prog`: `S_1`, `x_2`, `y_3`, and `f`
untouched. -/
def c4_out : List RGlobalStatement :=
  [.struct_ ⟨mint_name "S" 1, [], c4_loc, none⟩,
   .function ⟨"f", [(.i64, mint_name "x" 2)], .void,
     .mk [.mk (.let_ ⟨mint_name "y" 3, none, .literal (.integer 1) none none c4_loc,
       c4_loc, none⟩) c4_loc] c4_loc,
     c4_loc, none⟩]

/-- Witness for C4 on `c4_prog`. -/
theorem C4_witness :
    rename_statements c4_prog =
      some (c4_out, ⟨3, ScopedMap.default RLetStatement⟩) ∧
    (rprogram_fn_names c4_out = rprogram_fn_names c4_prog ∧
      (rprogram_decls c4_out).Nodup ∧
      MintedBetween 0 3 (rprogram_decls c4_prog) (rprogram_decls c4_out)) :=
  ⟨rfl, C4_renamer_decls c4_prog c4_out ⟨3, ScopedMap.default RLetStatement⟩ rfl⟩

/-! ### The lexer — `src/libbubble/src/parser/lexer.rs`

The `logos`-derived `Token` lexer: at each position the longest match over
all declared patterns wins, with `#[token]` literals taking precedence
over `#[regex]` patterns on equal length (so keywords beat the identifier
regex); whitespace `[ \r\t\v\n]` is skipped; when no pattern matches, or a
pattern's callback fails (the `Integer` regex callback
`lex.slice().parse::<i64>()` fails exactly when the digit string exceeds
`i64::MAX`, and `handle_quote` fails on an unclosed string), the `#[error]`
variant `Token::Error` is produced. `Lexer::next` (lexer.rs lines 192-204)
maps `Token::Error` to `Err(LexicalError::InvalidToken)` and every other
token to `Ok((span.start, token, span.end))`. -/

inductive LexToken where
  | leftParen | rightParen | leftBracket | rightBracket
  | leftCurlyBracket | rightCurlyBracket
  | comma | semicolon | colon | equal
  | plus | minus | star | slash | percent | and_ | or_ | not_
  | equalEqual | bangEqual | less | more | lessEqual | moreEqual
  | function_ | struct_ | if_ | else_ | for_ | while_ | return_
  | let_ | break_ | continue_ | true_ | false_ | extern_
  | u8Ty | u16Ty | u32Ty | u64Ty | i8Ty | i16Ty | i32Ty | i64Ty
  | boolTy | stringTy | voidTy | ptr | addrof | deref | null
  | identifier (s : String)
  | real (slice : String)
  | integer (value : Int)
  | string_ (s : String)
  | error
  deriving Repr

/-- `LexicalError` (lexer.rs lines 7-12). -/
inductive LexicalError where
  | invalidToken
  | invalidIntegerLiteral (msg : String)
  | invalidFloatLiteral (msg : String)
  deriving Repr, DecidableEq

/-- The `#[token]` literals in declaration order. -/
def fixed_tokens : List (String × LexToken) :=
  [("(", .leftParen), (")", .rightParen), ("[", .leftBracket), ("]", .rightBracket),
   ("\x7b", .leftCurlyBracket), ("\x7d", .rightCurlyBracket),
   (",", .comma), (";", .semicolon), (":", .colon), ("=", .equal),
   ("+", .plus), ("-", .minus), ("*", .star), ("/", .slash), ("%", .percent),
   ("and", .and_), ("or", .or_), ("not", .not_),
   ("==", .equalEqual), ("!=", .bangEqual), ("<", .less), (">", .more),
   ("<=", .lessEqual), (">=", .moreEqual),
   ("function", .function_), ("struct", .struct_), ("if", .if_), ("else", .else_),
   ("for", .for_), ("while", .while_), ("return", .return_), ("let", .let_),
   ("break", .break_), ("continue", .continue_), ("true", .true_),
   ("false", .false_), ("extern", .extern_),
   ("u8", .u8Ty), ("u16", .u16Ty), ("u32", .u32Ty), ("u64", .u64Ty),
   ("i8", .i8Ty), ("i16", .i16Ty), ("i32", .i32Ty), ("i64", .i64Ty),
   ("bool", .boolTy), ("string", .stringTy), ("void", .voidTy),
   ("ptr", .ptr), ("addrof", .addrof), ("deref", .deref), ("null", .null)]

/-- `[0-9]`. -/
def is_digit (c : Char) : Bool := decide (48 ≤ c.toNat ∧ c.toNat ≤ 57)

/-- `[1-9]`. -/
def is_nonzero_digit (c : Char) : Bool := decide (49 ≤ c.toNat ∧ c.toNat ≤ 57)

/-- `[a-zA-Z]`. -/
def is_alpha (c : Char) : Bool :=
  decide ((97 ≤ c.toNat ∧ c.toNat ≤ 122) ∨ (65 ≤ c.toNat ∧ c.toNat ≤ 90))

/-- `[a-zA-Z0-9_]`. -/
def is_ident_cont (c : Char) : Bool := is_alpha c || is_digit c || c = '_'

/-- Does `input` start with the pattern? -/
def starts_with : List Char → List Char → Bool
  | [], _ => true
  | _ :: _, [] => false
  | p :: ps, c :: cs => if p = c then starts_with ps cs else false

/-- Length of the longest prefix satisfying `p`. -/
def take_while_len (p : Char → Bool) : List Char → Nat
  | [] => 0
  | c :: cs => if p c then take_while_len p cs + 1 else 0

/-- Longest `#[token]` literal matching at the head of `input` (distinct
literals of equal length cannot both match, so ties are impossible). -/
def match_fixed : List (String × LexToken) → List Char → Option (Nat × LexToken)
  | [], _ => none
  | (s, t) :: rest, input =>
      let r := match_fixed rest input
      if starts_with s.data input then
        match r with
        | some (n, t') =>
            if n ≤ s.data.length then some (s.data.length, t) else some (n, t')
        | none => some (s.data.length, t)
      else r

/-- Maximal-munch match of `[a-zA-Z][a-zA-Z0-9_]*`. -/
def match_identifier : List Char → Option Nat
  | [] => none
  | c :: cs => if is_alpha c then some (take_while_len is_ident_cont cs + 1) else none

/-- Maximal-munch match of `[1-9]+[0-9]*|0`. -/
def match_integer : List Char → Option Nat
  | [] => none
  | c :: cs =>
      if is_nonzero_digit c then some (take_while_len is_digit cs + 1)
      else if c = '0' then some 1
      else none

/-- Maximal-munch match of `([0-9]+)?\.[0-9]+`. -/
def match_real (input : List Char) : Option Nat :=
  let d := take_while_len is_digit input
  match input.drop d with
  | c :: rest =>
      if c = '.' then
        let f := take_while_len is_digit rest
        if 0 < f then some (d + 1 + f) else none
      else none
  | [] => none

/-- Index of the first `"` in the remainder (`handle_quote`'s scan,
lexer.rs lines 29-44). -/
def find_quote : List Char → Option Nat
  | [] => none
  | c :: cs => if c = '"' then some 0 else (find_quote cs).map (· + 1)

/-- One `logos` step: a token, a whitespace skip, or the `Error` token,
together with the number of characters consumed. -/
inductive StepResult where
  | tok (t : LexToken)
  | skip
  | error
  deriving Repr

/-- The `"`-token with the `handle_quote` callback: on a closing quote the
lexer is bumped past the content and the quote (lexer.rs line 36); an
unclosed literal fails the callback, producing `Token::Error` over the
opening quote. -/
def match_string_lit : List Char → Option (Nat × StepResult)
  | [] => none
  | c :: rest =>
      if c = '"' then
        match find_quote rest with
        | some i => some (i + 2, .tok (.string_ ⟨rest.take i⟩))
        | none => some (1, .error)
      else none

/-- The whitespace-skip regex `[ \r\t\v\r\n]`. -/
def match_whitespace : List Char → Option Nat
  | [] => none
  | c :: _ =>
      if c = ' ' ∨ c = '\r' ∨ c = '\t' ∨ c = '\x0B' ∨ c = '\n' then some 1 else none

/-- All pattern matches at the head of `input`, `#[token]` literals first
(they win length ties against the regexes, e.g. keywords against the
identifier regex). The `Integer` callback `lex.slice().parse::<i64>()`
succeeds exactly when the value fits, otherwise the token is `Error`. -/
def step_candidates (input : List Char) : List (Nat × StepResult) :=
  (match match_fixed fixed_tokens input with
   | some (n, t) => [(n, StepResult.tok t)]
   | none => []) ++
  (match match_identifier input with
   | some n => [(n, StepResult.tok (.identifier ⟨input.take n⟩))]
   | none => []) ++
  (match match_real input with
   | some n => [(n, StepResult.tok (.real ⟨input.take n⟩))]
   | none => []) ++
  (match match_integer input with
   | some n =>
       [(n,
         if digits_to_nat (input.take n) ≤ 9223372036854775807 then
           StepResult.tok (.integer (Int.ofNat (digits_to_nat (input.take n))))
         else StepResult.error)]
   | none => []) ++
  (match match_string_lit input with
   | some p => [p]
   | none => []) ++
  (match match_whitespace input with
   | some n => [(n, StepResult.skip)]
   | none => [])

/-- Maximal munch: keep the longest candidate, the earlier one on ties. -/
def pick_best : List (Nat × StepResult) → Option (Nat × StepResult)
  | [] => none
  | c :: rest =>
      match pick_best rest with
      | none => some c
      | some (n, r) => if n ≤ c.1 then some c else some (n, r)

/-- One lexing step: the best match, or — when no pattern matches — the
`Error` token over one character (`logos`'s default error handling). -/
def token_step (input : List Char) : Nat × StepResult :=
  match pick_best (step_candidates input) with
  | some c => c
  | none => (1, .error)

/-- `Lexer::next` (lexer.rs lines 192-204): skip whitespace, then return
`Err(InvalidToken)` for an `Error` token and `Ok((start, token, end))`
otherwise; `none` at end of input. Each step consumes at least one
character, so `input.length + 1` fuel suffices. -/
def lexer_next_go : Nat → List Char → Nat → Option (Except LexicalError (Nat × LexToken × Nat))
  | 0, _, _ => none
  | fuel + 1, input, pos =>
      match input with
      | [] => none
      | _ :: _ =>
          let s := token_step input
          match s.2 with
          | .skip => lexer_next_go fuel (input.drop s.1) (pos + s.1)
          | .tok t => some (.ok (pos, t, pos + s.1))
          | .error => some (.error .invalidToken)

/-- The first `Lexer::next` call on a source text. -/
def lexer_next (input : String) : Option (Except LexicalError (Nat × LexToken × Nat)) :=
  lexer_next_go (input.data.length + 1) input.data 0

/-! ### C6 — what an overflowing integer literal lexes to -/

theorem take_while_len_all (p : Char → Bool) :
    ∀ l : List Char, (∀ x ∈ l, p x = true) → take_while_len p l = l.length := by
  intro l
  induction l with
  | nil => intro _; rfl
  | cons c cs ih =>
      intro h
      have hc : p c = true := h c (by simp)
      simp [take_while_len, hc, ih (fun x hx => h x (by simp [hx]))]

/-- Does a token literal start with a non-digit? (Every one does.) -/
def head_nondigit (s : String) : Bool :=
  match s.data with
  | [] => false
  | c :: _ => !is_digit c

theorem match_fixed_digit_none :
    ∀ l : List (String × LexToken),
      l.all (fun p => head_nondigit p.1) = true →
      ∀ c cs, is_digit c = true → match_fixed l (c :: cs) = none := by
  intro l
  induction l with
  | nil => intro _ c cs _; rfl
  | cons p rest ih =>
      intro hall c cs hc
      simp only [List.all_cons, Bool.and_eq_true] at hall
      have hsw : starts_with p.1.data (c :: cs) = false := by
        rcases hd : p.1.data with _ | ⟨c0, cs0⟩
        · exfalso
          have := hall.1
          rw [head_nondigit, hd] at this
          cases this
        · have hnd : is_digit c0 = false := by
            have := hall.1
            rw [head_nondigit, hd] at this
            simpa using this
          have hne : c0 ≠ c := by
            intro he
            rw [he, hc] at hnd
            cases hnd
          simp [starts_with, hd, hne]
      simp [match_fixed, hsw, ih hall.2 c cs hc]

/-- Helper lemma: every `Err` the lexer ever returns is `InvalidToken` —
`LexicalError::InvalidIntegerLiteral` is declared (lexer.rs line 10) but
constructed nowhere. -/
theorem lexer_go_error_is_invalid_token :
    ∀ fuel input pos r, lexer_next_go fuel input pos = some (.error r) →
      r = LexicalError.invalidToken := by
  intro fuel
  induction fuel with
  | zero => intro input pos r h; simp [lexer_next_go] at h
  | succ fuel ih =>
      intro input pos r h
      cases input with
      | nil => simp [lexer_next_go] at h
      | cons a as =>
          simp only [lexer_next_go] at h
          rcases hs : (token_step (a :: as)).2 with t | _ | _
          · rw [hs] at h
            simp at h
          · rw [hs] at h
            exact ih _ _ _ h
          · rw [hs] at h
            simp only [Option.some.injEq, Except.error.injEq] at h
            exact h.symm

theorem lexer_error_is_invalid_token (s : String) (r : LexicalError)
    (h : lexer_next s = some (.error r)) : r = LexicalError.invalidToken :=
  lexer_go_error_is_invalid_token _ _ _ r h

/-- C6 (amended): for every source text that is a decimal integer literal
`[1-9][0-9]*` whose value exceeds `i64::MAX = 9223372036854775807`, the
lexer reports `Err(LexicalError::InvalidToken)` — not
`InvalidIntegerLiteral`: the failed `parse::<i64>()` callback makes
`logos` emit the `#[error]` token, which `Lexer::next` maps to
`InvalidToken` (`InvalidIntegerLiteral` is never constructed, see
`lexer_error_is_invalid_token`). -/
theorem C6_overflowing_integer_literal (c : Char) (cs : List Char)
    (hhead : is_nonzero_digit c = true)
    (hdigits : ∀ x ∈ cs, is_digit x = true)
    (hbig : 9223372036854775807 < digits_to_nat (c :: cs)) :
    lexer_next ⟨c :: cs⟩ = some (.error .invalidToken) := by
  have h49 : 49 ≤ c.toNat ∧ c.toNat ≤ 57 := by
    simpa [is_nonzero_digit] using hhead
  have hcdig : is_digit c = true := by
    simp only [is_digit, decide_eq_true_eq]
    omega
  have hall : ∀ x ∈ c :: cs, is_digit x = true := by
    intro x hx
    rcases List.mem_cons.mp hx with rfl | hx
    · exact hcdig
    · exact hdigits x hx
  have hfix : match_fixed fixed_tokens (c :: cs) = none :=
    match_fixed_digit_none fixed_tokens (by decide) c cs hcdig
  have halpha : is_alpha c = false := by
    simp only [is_alpha, decide_eq_false_iff_not]
    omega
  have hid : match_identifier (c :: cs) = none := by
    simp [match_identifier, halpha]
  have hreal : match_real (c :: cs) = none := by
    simp only [match_real, take_while_len_all is_digit (c :: cs) hall,
      List.drop_length]
  have hq : c ≠ '"' := by
    intro he
    rw [he] at h49
    exact absurd h49 (by decide)
  have hstr : match_string_lit (c :: cs) = none := by
    simp [match_string_lit, hq]
  have hwsne : ¬(c = ' ' ∨ c = '\r' ∨ c = '\t' ∨ c = '\x0B' ∨ c = '\n') := by
    intro h
    rcases h with h | h | h | h | h <;> (rw [h] at h49; exact absurd h49 (by decide))
  have hws : match_whitespace (c :: cs) = none := by
    simp [match_whitespace, hwsne]
  have hint : match_integer (c :: cs) = some (cs.length + 1) := by
    simp [match_integer, hhead, take_while_len_all is_digit cs hdigits]
  have htake : (c :: cs).take (cs.length + 1) = c :: cs := by
    have hlen : (c :: cs).length = cs.length + 1 := rfl
    rw [← hlen, List.take_length]
  have hover :
      ¬ digits_to_nat ((c :: cs).take (cs.length + 1)) ≤ 9223372036854775807 := by
    rw [htake]
    omega
  have hcand : step_candidates (c :: cs) = [(cs.length + 1, .error)] := by
    simp [step_candidates, hfix, hid, hreal, hint, hstr, hws, hover, htake, hbig]
  show lexer_next_go ((c :: cs).length + 1) (c :: cs) 0 = _
  simp [lexer_next_go, token_step, hcand, pick_best]

/-- C6 counterexample: lexing `9223372036854775808` (`i64::MAX + 1`)
yields `Err(InvalidToken)` — the claimed `InvalidIntegerLiteral` (a
distinct `LexicalError` constructor) is not produced. -/
theorem C6_counterexample :
    lexer_next "9223372036854775808" = some (.error .invalidToken) := rfl

/-- Witness for C6 at the concrete input `9223372036854775808`. -/
theorem C6_witness :
    is_nonzero_digit '9' = true ∧
    List.all "223372036854775808".data is_digit = true ∧
    9223372036854775807 < digits_to_nat ('9' :: "223372036854775808".data) ∧
    lexer_next ⟨'9' :: "223372036854775808".data⟩ = some (.error .invalidToken) :=
  ⟨by decide, by decide, by decide,
    C6_overflowing_integer_literal '9' "223372036854775808".data (by decide)
      (by decide) (by decide)⟩

end Bubble
